import Mathlib

/-!
Verification of the memory-augmented attention datastore (memtrans) against its
natural-language specification.  The Python source is shallowly embedded:
tensors become nested lists over the rationals (floating point values are
modelled as exact rationals), integer tensors become lists of integers,
mutable objects become explicit state records, and Python assertions or
raised exceptions become the error case of an Except value.
-/

namespace MemTrans

/-- Rational-valued tensors of increasing rank, as nested lists. -/
abbrev QT1 := List ℚ

abbrev QT2 := List QT1

abbrev QT3 := List QT2

abbrev QT4 := List QT3

abbrev QT5 := List QT4

/-- Integer-valued tensors. -/
abbrev IT1 := List Int

abbrev IT2 := List IT1

abbrev IT3 := List IT2

/-- Python slice assignment xs[start:start+len(upd)] = upd on a 1-D array. -/
def setSlice {α : Type} (xs : List α) (start : Nat) (upd : List α) : List α :=
  xs.take start ++ upd ++ xs.drop (start + upd.length)

/-- A rank-3 torch tensor: torch carries the full shape even when a dimension
is zero, so the shape is recorded alongside the nested-list payload. -/
structure Tensor3 where
  n0 : Nat
  n1 : Nat
  n2 : Nat
  data : QT3
deriving DecidableEq

/-- Shape/data agreement for a Tensor3. -/
def Tensor3.WF (t : Tensor3) : Prop :=
  t.data.length = t.n0 ∧
  ∀ m ∈ t.data, m.length = t.n1 ∧ ∀ r ∈ m, r.length = t.n2

/-- Modelled from the spec: utils.StridedTensor (its source file is not part
of src/).  A packed sequence of items together with the start offset and
length of the contiguous span belonging to each example id. -/
structure StridedTensor (α : Type) where
  packed : List α
  starts : List Nat
  lengths : List Nat
deriving DecidableEq

/-- Modelled from the spec: StridedTensor.lookup with padded output — for
each requested id, gather its contiguous span from the packed tensor and
right-pad every row with the pad element to the longest span in the batch. -/
def StridedTensor.lookupPadded {α : Type} (st : StridedTensor α) (pad : α)
    (ids : IT1) : List (List α) :=
  let rows := ids.map (fun i =>
    (st.packed.drop (st.starts.getD i.toNat 0)).take (st.lengths.getD i.toNat 0))
  let maxlen := (rows.map List.length).foldr max 0
  rows.map (fun r => r ++ List.replicate (maxlen - r.length) pad)

/-- State of MemTransDatastore: the memory-mapped arrays, their configured
shape, the write cursor, the labels saved by the forward hooks, and the
strided lookup structures built by load_index with build_offset. -/
structure Datastore where
  n_heads : Nat
  dimension : Nat
  size : Nat
  cur_idx : Nat
  keys : QT3             -- (n_heads, size, dimension)
  values : QT3           -- (n_heads, size, dimension)
  tokens : IT1           -- (size)
  ids : IT1              -- (size)
  readOnly : Bool        -- memmap opened with mode r (an existing datastore)
  labels : Option IT2    -- saved by save_labels: (batch_size, seq_length)
  decoder_input_ids : Option IT2  -- (batch_size, seq_length)
  keys_strided : StridedTensor QT2    -- per token: (n_heads, dimension)
  values_strided : StridedTensor QT2
  tokens_strided : StridedTensor Int
  ids_strided : StridedTensor Int
deriving DecidableEq

/-- MemTransDatastore.save_key_value: append a batch of keys/values plus the
token/id side channels.  The three leading assertions, the truncation policy
and the write into the memmap slices follow the source line by line; writing
into a read-only memmap is the ValueError branch of the source. -/
def Datastore.save_key_value (st : Datastore) (keys values : Tensor3)
    (tokens ids : IT1) : Except String Datastore :=
  -- assert keys.size(1) == values.size(1) == tokens.size(0) == ids.size(0)
  if ¬ (keys.n1 = values.n1 ∧ values.n1 = tokens.length ∧ tokens.length = ids.length) then
    .error "assert: inconsistent sizes"
  else
    let nt := keys.n1
    -- assert nh == self.n_heads and dim == self.dimension
    if ¬ (keys.n0 = st.n_heads ∧ keys.n2 = st.dimension) then
      .error "keys and values are in a wrong shape"
    -- assert self.cur_idx <= self.size
    else if ¬ (st.cur_idx ≤ st.size) then
      .error "datastore overflow"
    else
      -- truncate to the remaining capacity
      let tup :=
        if st.size < st.cur_idx + nt then
          let nt2 := st.size - st.cur_idx
          (nt2, keys.data.map (List.take nt2), values.data.map (List.take nt2),
            tokens.take nt2, ids.take nt2)
        else (nt, keys.data, values.data, tokens, ids)
      -- writing to a read-only memmap raises ValueError
      if st.readOnly then
        .error "Error saving datastore: read-only"
      else
        .ok { st with
          keys := List.zipWith (fun old new => setSlice old st.cur_idx new) st.keys tup.2.1,
          values := List.zipWith (fun old new => setSlice old st.cur_idx new) st.values tup.2.2.1,
          tokens := setSlice st.tokens st.cur_idx tup.2.2.2.1,
          ids := setSlice st.ids st.cur_idx tup.2.2.2.2,
          cur_idx := st.cur_idx + tup.1 }

/-- A sequence of save_key_value calls, each batch being
(keys, values, tokens, ids). -/
def appendSeq (st : Datastore) (batches : List (Tensor3 × Tensor3 × IT1 × IT1)) :
    Except String Datastore :=
  batches.foldlM (fun s b => s.save_key_value b.1 b.2.1 b.2.2.1 b.2.2.2) st

/-- The offset-building loop of MemTransDatastore.load_index (build_offset
branch): scan the ids, opening a new span whenever the id increments by one,
staying inside the current span when it repeats, and raising ValueError on
any other transition.  State: remaining ids, prev_id, running position i,
accumulated start_offsets and end_offsets. -/
def buildOffsetsLoop : List Int → Int → Nat → List Nat → List Nat →
    Except String (List Nat × List Nat)
  | [], _, _, starts, ends => .ok (starts, ends)
  | id :: rest, prev, i, starts, ends =>
    if id = prev + 1 then
      buildOffsetsLoop rest id (i + 1) (starts ++ [i])
        (if starts.length ≠ 0 then ends ++ [i] else ends)
    else if id = prev then
      buildOffsetsLoop rest prev (i + 1) starts ends
    else
      .error "ids are not consecutive"

/-- MemTransDatastore.load_index, build_offset part: returns
(start_offsets, end_offsets, lengths); start offsets are inclusive, end
offsets exclusive, lengths their differences. -/
def load_index_offsets (ids : List Int) :
    Except String (List Nat × List Nat × List Nat) :=
  match buildOffsetsLoop ids (-1) 0 [] [] with
  | .error e => .error e
  | .ok (starts, ends) =>
    let ends := ends ++ [ids.length]
    -- assert len(self.start_offsets) == len(self.end_offsets)
    if starts.length = ends.length then
      .ok (starts, ends, List.zipWith (fun e s => e - s) ends starts)
    else
      .error "assert: offset lengths differ"

/-- The 4-tuple (ret_ks, ret_vs, ret_ts, ret_ids) returned by the knn
queries; the token and id channels are present only when return_all is
requested. -/
structure KnnResult where
  ks : QT4      -- (n_heads, batch_size, topk, dim)
  vs : QT4
  ts : Option IT3   -- (n_heads, batch_size, topk)
  ids : Option IT3
deriving DecidableEq

/-- MemTransDatastore.get_knns.  The faiss index of head h is modelled by the
externally supplied function search, which maps the batch of queries of that
head and the requested top-k to the (batch, topk) matrix of retrieved
datastore positions.  Queries are shaped (n_heads, batch, dim). -/
def Datastore.get_knns (st : Datastore) (search : Nat → QT2 → Int → List (List Nat))
    (queries : QT3) (topk : Int) (return_all : Bool) :
    Except String KnnResult :=
  let nh := queries.length
  let bs := (queries.headD []).length
  if topk ≤ 0 then
    -- return "empty" tensors: zeros of shape (n_heads, batch_size, 0, dim)
    let ret_ks : QT4 := List.replicate nh (List.replicate bs ([] : QT2))
    let ret_vs : QT4 := List.replicate nh (List.replicate bs ([] : QT2))
    if return_all then
      let ret_ts : IT3 := List.replicate nh (List.replicate bs ([] : IT1))
      let ret_ids : IT3 := List.replicate nh (List.replicate bs ([] : IT1))
      .ok ⟨ret_ks, ret_vs, some ret_ts, some ret_ids⟩
    else
      .ok ⟨ret_ks, ret_vs, none, none⟩
  else
    let gather := fun (h : Nat) =>
      let indices := search h (queries.getD h []) topk
      (indices.map (fun row => row.map (fun i => (st.keys.getD h []).getD i [])),
       indices.map (fun row => row.map (fun i => (st.values.getD h []).getD i [])),
       indices.map (fun row => row.map (fun i => st.tokens.getD i 0)),
       indices.map (fun row => row.map (fun i => st.ids.getD i 0)))
    let per := (List.range nh).map gather
    let ret_ks := per.map (·.1)
    let ret_vs := per.map (·.2.1)
    if return_all then
      .ok ⟨ret_ks, ret_vs, some (per.map (·.2.2.1)), some (per.map (·.2.2.2))⟩
    else
      .ok ⟨ret_ks, ret_vs, none, none⟩

/-- Python slicing l[:n] for an arbitrary integer n (a negative bound counts
from the end of the list). -/
def pyTake {α : Type} (l : List α) (n : Int) : List α :=
  l.take (if 0 ≤ n then n.toNat else (l.length + n).toNat)

/-- Permute a (bs, len, n_heads, dim) tensor to (n_heads, bs, len, dim).  The
head count is taken from the tensor metadata (torch keeps it even when the
length dimension is zero). -/
def permute2013 (nh : Nat) (x : QT4) : QT4 :=
  (List.range nh).map (fun n => x.map (fun b => b.map (fun l => l.getD n [])))

/-- MemTransDatastore.get_knns_by_ids: direct by-example lookup through the
strided tensors, optionally dropping the first (bos) slot, truncating to
max_length, and reshaping to (n_heads, batch_size, len, dim). -/
def Datastore.get_knns_by_ids (st : Datastore) (ids : IT1) (max_length : Int)
    (skip_first_token return_all : Bool) :
    Except String KnnResult :=
  let zero2 : QT2 := List.replicate st.n_heads (List.replicate st.dimension 0)
  let ret_ks := st.keys_strided.lookupPadded zero2 ids    -- (bs, seq_len, nh, dim)
  let ret_vs := st.values_strided.lookupPadded zero2 ids
  let ret_ts := st.tokens_strided.lookupPadded 0 ids      -- (bs, seq_len)
  let ret_ids := st.ids_strided.lookupPadded 0 ids
  -- assert the size(1) of all returned tensors agree
  if ¬ ((ret_ks.headD []).length = (ret_vs.headD []).length ∧
      (return_all → (ret_vs.headD []).length = (ret_ts.headD []).length ∧
        (ret_ts.headD []).length = (ret_ids.headD []).length)) then
    .error "assert: lookup lengths differ"
  else
    -- skip the first token which is usually the bos token
    let ret_ks := if skip_first_token then ret_ks.map (List.drop 1) else ret_ks
    let ret_vs := if skip_first_token then ret_vs.map (List.drop 1) else ret_vs
    let ret_ts := if skip_first_token then ret_ts.map (List.drop 1) else ret_ts
    let ret_ids := if skip_first_token then ret_ids.map (List.drop 1) else ret_ids
    -- truncate to max_length
    let seq_len := (ret_ks.headD []).length
    let ret_ks := if max_length < (seq_len : Int) then ret_ks.map (pyTake · max_length) else ret_ks
    let ret_vs := if max_length < (seq_len : Int) then ret_vs.map (pyTake · max_length) else ret_vs
    let ret_ts := if max_length < (seq_len : Int) then ret_ts.map (pyTake · max_length) else ret_ts
    let ret_ids := if max_length < (seq_len : Int) then ret_ids.map (pyTake · max_length) else ret_ids
    let ks := permute2013 st.n_heads ret_ks
    let vs := permute2013 st.n_heads ret_vs
    if return_all then
      .ok ⟨ks, vs, some (List.replicate st.n_heads ret_ts),
        some (List.replicate st.n_heads ret_ids)⟩
    else
      .ok ⟨ks, vs, none, none⟩

/-- State of a RetrievalTracker.  The output file handle is modelled by
returning the written text from write. -/
structure Tracker where
  n_heads : Nat
  topk : Int
  eos_token_id : Int
  predictions : List IT1       -- one (batch_size) entry per step
  retrieved_tokens : List IT3  -- one (batch_size, n_heads, topk) entry per step
  retrieved_ids : List IT3
deriving DecidableEq

/-- RetrievalTracker.add_single_step_batched. -/
def Tracker.add_single_step_batched (t : Tracker) (prediction : IT1)
    (retrieved_token retrieved_id : IT3) : Except String Tracker :=
  if prediction.length = retrieved_token.length ∧
      retrieved_token.length = retrieved_id.length then
    .ok { t with predictions := t.predictions ++ [prediction],
                 retrieved_tokens := t.retrieved_tokens ++ [retrieved_token],
                 retrieved_ids := t.retrieved_ids ++ [retrieved_id] }
  else
    .error "assert: batch sizes differ"

/-- torch.stack(steps, dim=1): turn a per-step list of (batch, ...) tensors
into a (batch, steps, ...) tensor; stacking an empty list is an error. -/
def stackDim1 {α : Type} (dflt : α) (l : List (List α)) :
    Except String (List (List α)) :=
  if l.isEmpty then .error "stack expects a non-empty TensorList"
  else
    let bs := (l.headD []).length
    .ok ((List.range bs).map fun b => l.map fun step => step.getD b dflt)

/-- np.argmax: index of the first occurrence of the maximum. -/
def argmaxFirst : List Nat → Nat
  | [] => 0
  | x :: xs => if xs.foldr max 0 ≤ x then 0 else argmaxFirst xs + 1

/-- The top-k width rt.size(-1) of one buffered (batch, n_heads, topk) step. -/
def widthOf (rt : IT3) : Nat := ((rt.headD []).headD []).length

/-- An all-zero integer tensor with the shape of the given one. -/
def zerosLike (rt : IT3) : IT3 := rt.map (fun m => m.map (fun r => r.map (fun _ => 0)))

/-- The ragged-width handling of RetrievalTracker.write: max_topk_idx and
max_topk are computed from the reference field (retrieved_tokens in the
source), and every step whose top-k width differs from max_topk is replaced
by an all-zero tensor shaped like the widest step of the field. -/
def padSteps (ref : List IT3) (steps : List IT3) : List IT3 :=
  let max_topk_idx := argmaxFirst (ref.map widthOf)
  let max_topk := widthOf (ref.getD max_topk_idx [])
  steps.map fun rt =>
    if widthOf rt ≠ max_topk then zerosLike (steps.getD max_topk_idx []) else rt

/-- The flatten(2, 4) of the stacked (tokens, ids) pair at one (batch, step)
position: heads and top-k slots interleaved as tok, id, tok, id, ... -/
def interleavePairs (tok ident : IT2) : IT1 :=
  (List.zipWith (fun tr ir => (List.zipWith (fun a b => [a, b]) tr ir).flatten) tok ident).flatten

/-- The per-batch-row emission loop of RetrievalTracker.write: one line per
step until (and excluding) the first step whose prediction is the eos token,
then one blank separator line. -/
def emitRow (eos : Int) (row : List IT1) : List String :=
  ((row.takeWhile (fun s => s.headD 0 ≠ eos)).map
    (fun s => String.intercalate " " (s.map toString) ++ "\n")) ++ ["\n"]

/-- RetrievalTracker.write: stack the buffered steps, zero out ragged-width
steps, interleave tokens and ids after the prediction column, emit each
batch row up to its eos step, and clear the buffers.  Returns the text
written to the handle. -/
def Tracker.write (t : Tracker) : Except String (List String × Tracker) :=
  match stackDim1 0 t.predictions with
  | .error e => .error e
  | .ok predictions =>
    -- np.argmax of an empty size list is an error
    if t.retrieved_tokens.isEmpty then .error "attempt to get argmax of an empty sequence"
    else
      let rtokSteps := padSteps t.retrieved_tokens t.retrieved_tokens
      let ridsSteps := padSteps t.retrieved_tokens t.retrieved_ids
      match stackDim1 [] rtokSteps, stackDim1 [] ridsSteps with
      | .error e, _ => .error e
      | _, .error e => .error e
      | .ok retTok, .ok retIds =>
        let agg : List (List IT1) :=
          List.zipWith (fun predRow tp =>
              List.zipWith (fun p (ti : IT2 × IT2) => p :: interleavePairs ti.1 ti.2)
                predRow (List.zip tp.1 tp.2))
            predictions (List.zip retTok retIds)
        .ok (agg.flatMap (emitRow t.eos_token_id),
          { t with predictions := [], retrieved_tokens := [], retrieved_ids := [] })

/-- Permute a (bs, nh, sl, d) tensor to (nh, bs, sl, d) and flatten the
middle two dimensions to (nh, bs * sl, d), as in
states.permute(1, 0, 2, 3).flatten(1, 2). -/
def permuteFlatten102 (x : QT4) : QT3 :=
  let nh := (x.headD []).length
  (List.range nh).map (fun n => (x.map (fun b => b.getD n [])).flatten)

/-- Permute an integer (nh, bs, k) tensor to (bs, nh, k). -/
def permute102i (x : IT3) : IT3 :=
  let bs := (x.headD []).length
  (List.range bs).map (fun b => x.map (fun h => h.getD b []))

/-- Boolean-mask selection along a list (torch fancy indexing with a boolean
mask). -/
def maskSelect {α : Type} (mask : List Bool) (l : List α) : List α :=
  (List.zip l mask).filterMap (fun p => if p.2 then some p.1 else none)

/-- The example ids assigned during MemTransAttn.save:
id_offset + arange(bs).unsqueeze(-1).repeat(1, sl).flatten(0, 1). -/
def saveIds (id_offset : Int) (bs sl : Nat) : IT1 :=
  ((List.range bs).map (fun j => List.replicate sl (id_offset + Int.ofNat j))).flatten

/-- Split a list into consecutive chunks of size k (torch view of a
(nh, bs * sl, ...) tensor as (nh, bs, sl, ...)). -/
def chunkList {α : Type} (k : Nat) : List α → List (List α)
  | [] => []
  | x :: xs =>
    if _hk : k = 0 then []
    else (x :: xs).take k :: chunkList k ((x :: xs).drop k)
termination_by l => l.length
decreasing_by
  simp only [List.length_drop, List.length_cons]
  omega

/-- Swap the outer two dimensions of a nested list (a permute moving
dimension 1 to the front). -/
def swap01 {α : Type} (dflt : α) (x : List (List α)) : List (List α) :=
  let d1 := (x.headD []).length
  (List.range d1).map (fun b => x.map (fun h => h.getD b dflt))

/-- Session state of MemTransAttn: the datastore, the retrieval
configuration, the tracker, the one-slot by-id cache and the running example
id offset. -/
structure MemTransAttn where
  dstore : Datastore
  topk : Int
  eos_token_id : Int
  stage : String
  track : Bool
  tracker : Tracker
  by_ids : Bool
  by_ids_cache : Option KnnResult
  id_offset : Int
  skip_retrieval_steps : Nat
  skip_first_token : Bool
  add_after_first : Bool
deriving DecidableEq

/-- MemTransAttn.is_track. -/
def MemTransAttn.is_track (m : MemTransAttn) : Bool := m.track

/-- MemTransAttn.save: mask out positions whose label is -100, assign
example ids by batch position, advance id_offset by the batch size, and
append the surviving key/value projections to the datastore. -/
def MemTransAttn.save (m : MemTransAttn) (key_states value_states : QT4) :
    Except String MemTransAttn :=
  let bs := key_states.length
  let nh := (key_states.headD []).length
  let sl := ((key_states.headD []).headD []).length
  let d := (((key_states.headD []).headD []).headD []).length
  match m.dstore.labels, m.dstore.decoder_input_ids with
  | some labels, some decoder_input_ids =>
    let labelsFlat := labels.flatten
    let decFlat := decoder_input_ids.flatten
    let mask := labelsFlat.map (fun l => l != -100)
    let ids := saveIds m.id_offset bs sl
    let m := { m with id_offset := m.id_offset + bs }
    let ksSel := (permuteFlatten102 key_states).map (maskSelect mask)
    let vsSel := (permuteFlatten102 value_states).map (maskSelect mask)
    let tokens := maskSelect mask decFlat
    let idsSel := maskSelect mask ids
    let nTok := mask.count true
    match m.dstore.save_key_value ⟨nh, nTok, d, ksSel⟩ ⟨nh, nTok, d, vsSel⟩ tokens idsSel with
    | .error e => .error e
    | .ok ds => .ok { m with dstore := ds }
  | _, _ => .error "labels were not saved before the forward call"

/-- The effective top-k decided at the start of MemTransAttn.retrieve:
clamped to 0 in multi-token evaluation mode, and forced to 0 while
key_length has not passed skip_retrieval_steps. -/
def retrieveTopk (m : MemTransAttn) (sl : Nat) (key_length : Nat) : Int :=
  let topk := m.topk
  let topk := if 1 < sl then min m.topk 0 else topk
  if m.skip_retrieval_steps ≠ 0 ∧ key_length ≤ m.skip_retrieval_steps then 0
  else topk

/-- MemTransAttn.retrieve: decide the effective top-k, retrieve by id (with
the one-slot cache) or by similarity search, feed the tracker, advance
id_offset and clear the cache after a multi-token call, and reshape the
results to (batch_size, n_heads, seq_length, topk, dim). -/
def MemTransAttn.retrieve (m : MemTransAttn)
    (search : Nat → QT2 → Int → List (List Nat))
    (query_states : QT4) (key_length : Nat) (idsOpt : Option IT1) :
    Except String ((QT5 × QT5) × MemTransAttn) :=
  let bs := query_states.length
  let sl := ((query_states.headD []).headD []).length
  let qflat := permuteFlatten102 query_states
  let topk := retrieveTopk m sl key_length
  let skip_for_retrieval := m.skip_retrieval_steps ≠ 0 ∧ key_length ≤ m.skip_retrieval_steps
  let ids := idsOpt.getD ((List.range bs).map (fun i => Int.ofNat i + m.id_offset))
  let branch : Except String (KnnResult × MemTransAttn) :=
    if m.by_ids ∧ sl = 1 then
      match (if ¬ skip_for_retrieval then m.by_ids_cache else none) with
      | some c => .ok (c, m)
      | none =>
        match m.dstore.get_knns_by_ids ids topk m.skip_first_token m.is_track with
        | .error e => .error e
        | .ok r =>
          .ok (r, { m with by_ids_cache := if ¬ skip_for_retrieval then some r else none })
    else
      match m.dstore.get_knns search qflat topk m.is_track with
      | .error e => .error e
      | .ok r => .ok (r, m)
  match branch with
  | .error e => .error e
  | .ok (res, m) =>
    let trackStep : Except String MemTransAttn :=
      if m.is_track then
        if sl = 1 then
          match m.dstore.decoder_input_ids, res.ts, res.ids with
          | some input_ids, some ts, some ris =>
            match m.tracker.add_single_step_batched (input_ids.map (fun r => r.headD 0))
                (permute102i ts) (permute102i ris) with
            | .error e => .error e
            | .ok tr => .ok { m with tracker := tr }
          | _, _, _ => .error "tracking data missing"
        else
          match m.tracker.write with
          | .error e => .error e
          | .ok (_, tr) => .ok { m with tracker := tr }
      else .ok m
    match trackStep with
    | .error e => .error e
    | .ok m =>
      let m := if 1 < sl then { m with id_offset := m.id_offset + (bs : Int), by_ids_cache := none }
               else m
      let rk5 := swap01 [] (res.ks.map (chunkList sl))
      let rv5 := swap01 [] (res.vs.map (chunkList sl))
      .ok ((rk5, rv5), m)

/-- Dot product of two vectors. -/
def dot (a b : QT1) : ℚ := (List.zipWith (· * ·) a b).sum

/-- Matrix transpose. -/
def matTranspose (m : QT2) : QT2 :=
  (List.range (m.headD []).length).map (fun j => m.map (fun r => r.getD j 0))

/-- Matrix product. -/
def matMul (a b : QT2) : QT2 :=
  a.map (fun ra => (matTranspose b).map (fun cb => dot ra cb))

/-- states.transpose(3, 2): transpose the last two dimensions. -/
def transpose32 (x : QT4) : QT4 := x.map (fun b => b.map matTranspose)

/-- Batched torch.matmul over the last two dimensions. -/
def matmul4 (x y : QT4) : QT4 :=
  List.zipWith (fun a b => List.zipWith matMul a b) x y

/-- Vector addition, treating a missing entry as zero. -/
def addVec : QT1 → QT1 → QT1
  | [], ys => ys
  | xs, [] => xs
  | x :: xs, y :: ys => (x + y) :: addVec xs ys

/-- Elementwise addition of rank-3 tensors. -/
def addT3 (x y : QT3) : QT3 :=
  List.zipWith (fun a b => List.zipWith addVec a b) x y

/-- Elementwise addition of rank-4 tensors. -/
def addT4 (x y : QT4) : QT4 := List.zipWith addT3 x y

/-- Elementwise multiplication of rank-4 tensors. -/
def mul4 (x y : QT4) : QT4 :=
  List.zipWith (fun a b => List.zipWith (fun c d =>
    List.zipWith (fun e f => List.zipWith (· * ·) e f) c d) a b) x y

/-- Addition with torch broadcasting over the leading (batch) dimension. -/
def bcastAdd4 (x y : QT4) : QT4 :=
  if x.length = 1 ∧ 1 < y.length then y.map (fun yb => addT3 (x.headD []) yb)
  else if y.length = 1 ∧ 1 < x.length then x.map (fun xb => addT3 xb (y.headD []))
  else addT4 x y

/-- Apply the (externally supplied numeric) softmax along the last
dimension. -/
def softmaxRows (f : QT1 → QT1) (x : QT4) : QT4 :=
  x.map (fun b => b.map (fun m => m.map f))

/-- An all-zero rank-4 tensor of the given shape. -/
def zeros4 (a b c d : Nat) : QT4 :=
  List.replicate a (List.replicate b (List.replicate c (List.replicate d (0 : ℚ))))

/-- bias[:, :, -sl:, :]: keep the last sl rows of dimension 2. -/
def sliceLastRows (sl : Nat) (x : QT4) : QT4 :=
  x.map (fun b => b.map (fun m => m.drop (m.length - sl)))

/-- torch.cat along dimension 2. -/
def cat2 (x y : QT4) : QT4 :=
  List.zipWith (fun a b => List.zipWith (· ++ ·) a b) x y

/-- torch.cat along dimension 3 (the last one for rank 4). -/
def cat3 (x y : QT4) : QT4 :=
  List.zipWith (fun a b => List.zipWith (fun c d => List.zipWith (· ++ ·) c d) a b) x y

/-- states[:, :, :n] on dimension 2. -/
def take2 (n : Nat) (x : QT4) : QT4 := x.map (fun b => b.map (List.take n))

/-- states[:, :, n:] on dimension 2. -/
def drop2 (n : Nat) (x : QT4) : QT4 := x.map (fun b => b.map (List.drop n))

/-- ret.squeeze(2) for a (bs, nh, 1, topk, dim) tensor. -/
def squeeze2 (x : QT5) : QT4 := x.map (fun b => b.map (fun s => s.headD []))

/-- weights[:, :, :, :n]: first n attention columns. -/
def firstCols (n : Nat) (x : QT4) : QT4 :=
  x.map (fun b => b.map (fun m => m.map (List.take n)))

/-- weights[:, :, :, -n:]: last n attention columns. -/
def lastCols (n : Nat) (x : QT4) : QT4 :=
  x.map (fun b => b.map (fun m => m.map (fun r => r.drop (r.length - n))))

/-- torch.einsum("bnqd,bnqkd->bnqk", q, r). -/
def einsum_q_rk (q : QT4) (r : QT5) : QT4 :=
  List.zipWith (fun qb rb =>
    List.zipWith (fun qn rn =>
      List.zipWith (fun qrow rks => rks.map (dot qrow)) qn rn) qb rb) q r

/-- torch.einsum("bnqk,bnqkd->bnqd", w, r). -/
def einsum_w_rv (w : QT4) (r : QT5) : QT4 :=
  List.zipWith (fun wb rb =>
    List.zipWith (fun wn rn =>
      List.zipWith (fun wrow rks =>
        (List.zipWith (fun c v => v.map (c * ·)) wrow rks).foldr addVec []) wn rn) wb rb) w r

/-- MemTransAttn.unshape: (bs, nh, sl, d) to (bs, sl, nh * d). -/
def unshape (states : QT4) : QT3 :=
  states.map (fun bmat =>
    (List.range ((bmat.headD []).length)).map
      (fun s => (bmat.map (fun h => h.getD s [])).flatten))

/-- The size(2) of a rank-4 tensor. -/
def size2 (x : QT4) : Nat := ((x.headD []).headD []).length

/-- The size(2) of a rank-5 tensor. -/
def size2of5 (x : QT5) : Nat := ((x.headD []).headD []).length

/-- The size(-2) (top-k width) of a (bs, nh, sl, topk, dim) tensor. -/
def topkOf (x : QT5) : Nat := (((x.headD []).headD []).headD []).length

/-- The host T5Attention layer: its flags, projection layers, position bias
table and the numeric softmax/dropout primitives, all treated as opaque
collaborator functions. -/
structure T5AttentionE where
  is_decoder : Bool
  n_heads : Nat
  key_value_proj_dim : Nat
  inner_dim : Nat
  has_relative_attention_bias : Bool
  qF : QT3 → QT3
  kF : QT3 → QT3
  vF : QT3 → QT3
  oF : QT3 → QT3
  computeBias : Nat → Nat → QT4    -- compute_bias(q_len, k_len): (1, n_heads, q_len, k_len)
  softmaxF : QT1 → QT1
  dropF : QT4 → QT4                -- dropout with the layer p and training mode

/-- MemTransAttn.update_mask_and_position_bias: prepend topk unmasked
columns to the mask, recompute the relative position bias over the extended
lengths, keep the last seq_length query rows and add the mask. -/
def update_mask_and_position_bias (ori : T5AttentionE) (mask : Option QT4)
    (seq_length real_seq_length key_length topk : Nat) : QT4 :=
  let mask := mask.map (fun m =>
    cat3 (zeros4 m.length (m.headD []).length ((m.headD []).headD []).length topk) m)
  let position_bias :=
    sliceLastRows seq_length (ori.computeBias (topk + real_seq_length) (topk + key_length))
  match mask with
  | some m => bcastAdd4 position_bias m
  | none => position_bias

/-- MemTransAttn.init_position_bias: the position bias of the unmodified
attention path (zeros when the layer has no relative attention bias), sliced
to the last seq_length rows when a past key/value cache is present, plus the
mask. -/
def init_position_bias (ori : T5AttentionE) (past_key_value : Option (QT4 × QT4))
    (mask : Option QT4) (real_seq_length key_length seq_length : Nat) : QT4 :=
  let position_bias :=
    if ¬ ori.has_relative_attention_bias then
      zeros4 1 ori.n_heads real_seq_length key_length
    else
      ori.computeBias real_seq_length key_length
  let position_bias :=
    match past_key_value with
    | some _ => sliceLastRows seq_length position_bias
    | none => position_bias
  match mask with
  | some m => bcastAdd4 position_bias m
  | none => position_bias

/-- MemTransAttn.original_attn: the unmodified host attention computation
(scores, bias, softmax, dropout, head mask, output projection). -/
def original_attn (ori : T5AttentionE) (query_states key_states value_states : QT4)
    (past_key_value : Option (QT4 × QT4)) (position_bias? : Option QT4)
    (mask : Option QT4) (layer_head_mask : Option QT4)
    (real_seq_length key_length : Nat) : QT4 × QT3 × QT4 :=
  let scores := matmul4 query_states (transpose32 key_states)
  let position_bias :=
    match position_bias? with
    | some pb => pb
    | none =>
      init_position_bias ori past_key_value mask real_seq_length key_length
        (size2 query_states)
  let scores := bcastAdd4 scores position_bias
  let attn_weights := ori.dropF (softmaxRows ori.softmaxF scores)
  let attn_weights :=
    match layer_head_mask with
    | some lhm => mul4 attn_weights lhm
    | none => attn_weights
  let attn_output := ori.oF (unshape (matmul4 attn_weights value_states))
  (attn_weights, attn_output, position_bias)

/-- MemTransAttn.attn: the retrieval-fused attention path.  In multi-token
evaluation mode retrieved scores are concatenated before local scores and
the output is the sum of the two column ranges; in single-token decoding
mode the retrieved keys/values are spliced into the local ones (before
everything, or after the first position under add_after_first) before a
joint softmax. -/
def attn (add_after_first : Bool) (ori : T5AttentionE)
    (query_states key_states value_states : QT4) (ret_ks ret_vs : QT5)
    (mask : Option QT4) (layer_head_mask : Option QT4)
    (real_seq_length key_length : Nat) : Except String (QT4 × QT3) :=
  if layer_head_mask.isSome then .error "NotImplementedError"
  else
    let sl := size2 query_states
    let kl := size2 key_states
    let topk := topkOf ret_ks
    if 1 < sl then
      -- multi-token evaluation
      if ¬ (sl = kl ∧ kl = real_seq_length ∧ real_seq_length = key_length) then
        .error "should be in eval mode"
      else
        let scores := matmul4 query_states (transpose32 key_states)
        let uscores := einsum_q_rk query_states ret_ks
        let scores := cat3 uscores scores
        let position_bias :=
          update_mask_and_position_bias ori mask sl real_seq_length key_length topk
        let scores := bcastAdd4 scores position_bias
        let attn_weights := ori.dropF (softmaxRows ori.softmaxF scores)
        let attn_output :=
          addT4 (matmul4 (lastCols kl attn_weights) value_states)
            (einsum_w_rv (firstCols topk attn_weights) ret_vs)
        .ok (attn_weights, ori.oF (unshape attn_output))
    else
      if ¬ sl = 1 then .error "should be in decoding mode"
      else if ¬ (size2of5 ret_ks = size2of5 ret_vs ∧ size2of5 ret_vs = sl) then
        .error "assert: retrieved seq dims"
      else if ¬ real_seq_length = key_length then .error "assert: lengths differ"
      else
        let kv :=
          if add_after_first ∧ 1 < key_length then
            (cat2 (take2 1 key_states) (cat2 (squeeze2 ret_ks) (drop2 1 key_states)),
             cat2 (take2 1 value_states) (cat2 (squeeze2 ret_vs) (drop2 1 value_states)))
          else
            (cat2 (squeeze2 ret_ks) key_states, cat2 (squeeze2 ret_vs) value_states)
        let scores := matmul4 query_states (transpose32 kv.1)
        let position_bias :=
          update_mask_and_position_bias ori mask sl real_seq_length key_length topk
        let scores := bcastAdd4 scores position_bias
        let attn_weights := ori.dropF (softmaxRows ori.softmaxF scores)
        let attn_output := ori.oF (unshape (matmul4 attn_weights kv.2))
        .ok (attn_weights, attn_output)

/-- The shape helper of t5attetnion_forward:
states.view(bs, -1, n_heads, key_value_proj_dim).transpose(1, 2). -/
def shapeProj (states : QT3) (dkv : Nat) : QT4 :=
  states.map (fun b => swap01 [] (b.map (chunkList dkv)))

/-- The project helper of t5attetnion_forward: build key/value states from
hidden states (self-attention) or the cross-attention source, reusing or
extending the past cache. -/
def project (hidden : QT3) (proj : QT3 → QT3) (dkv : Nat)
    (key_value_states : Option QT3) (past : Option QT4) : QT4 :=
  match key_value_states, past with
  | none, none => shapeProj (proj hidden) dkv
  | none, some p => cat2 p (shapeProj (proj hidden) dkv)
  | some kvs, none => shapeProj (proj kvs) dkv
  | some _, some p => p

/-- The outputs of t5attetnion_forward: attention output, present key/value
state, position bias and (optionally) the attention weights. -/
structure ForwardOut where
  attn_output : QT3
  present_key_value_state : Option (QT4 × QT4)
  position_bias : QT4
  attn_weights : Option QT4

/-- The patched t5attetnion_forward: build query/key/value states, dispatch
on the stage (save / retrieve / pass-through), and return the attention
output, the (decoder, use_cache) present key/value state and the position
bias. -/
def t5attetnion_forward (ori : T5AttentionE) (m : MemTransAttn)
    (search : Nat → QT2 → Int → List (List Nat))
    (hidden_states : QT3) (mask : Option QT4) (key_value_states : Option QT3)
    (position_bias? : Option QT4) (past_key_value : Option (QT4 × QT4))
    (layer_head_mask : Option QT4) (query_length : Option Nat)
    (use_cache output_attentions : Bool) :
    Except String (ForwardOut × MemTransAttn) :=
  let seq_length := (hidden_states.headD []).length
  let real_seq_length := seq_length +
    (match past_key_value with
     | some p => (query_length.getD (size2 p.1))
     | none => 0)
  let key_length :=
    match key_value_states with
    | none => real_seq_length
    | some kvs => (kvs.headD []).length
  let query_states := shapeProj (ori.qF hidden_states) ori.key_value_proj_dim
  let key_states := project hidden_states ori.kF ori.key_value_proj_dim
    key_value_states (past_key_value.map (·.1))
  let value_states := project hidden_states ori.vF ori.key_value_proj_dim
    key_value_states (past_key_value.map (·.2))
  let finish := fun (w : QT4) (out : QT3) (pb : QT4) (m : MemTransAttn) =>
    let present := if ori.is_decoder ∧ use_cache then some (key_states, value_states) else none
    Except.ok (⟨out, present, pb, if output_attentions then some w else none⟩, m)
  if m.stage = "save" then
    match m.save key_states value_states with
    | .error e => .error e
    | .ok m =>
      let r := original_attn ori query_states key_states value_states past_key_value
        position_bias? mask layer_head_mask real_seq_length key_length
      finish r.1 r.2.1 r.2.2 m
  else if m.stage = "retrieve" then
    match m.retrieve search query_states key_length none with
    | .error e => .error e
    | .ok ((ret_ks, ret_vs), m) =>
      let position_bias :=
        match position_bias? with
        | some pb => pb
        | none =>
          init_position_bias ori past_key_value mask real_seq_length key_length seq_length
      match attn m.add_after_first ori query_states key_states value_states ret_ks ret_vs
          mask layer_head_mask real_seq_length key_length with
      | .error e => .error e
      | .ok (w, out) => finish w out position_bias m
  else
    let r := original_attn ori query_states key_states value_states past_key_value
      position_bias? mask layer_head_mask real_seq_length key_length
    finish r.1 r.2.1 r.2.2 m

/-! ## Theorems -/

/-- Helper for C3: a list whose first two elements form a forbidden
transition (a drop, or a jump by more than one) makes the offset loop fail,
whatever the scan state is. -/
theorem buildOffsetsLoop_err_pair (a b : Int) (h : b < a ∨ a + 1 < b)
    (rest : List Int) (prev : Int) (i : Nat) (starts ends : List Nat) :
    buildOffsetsLoop (a :: b :: rest) prev i starts ends =
      .error "ids are not consecutive" := by
  have hb1 : ¬ b = a + 1 := by omega
  have hb2 : ¬ b = a := by omega
  by_cases h1 : a = prev + 1
  · subst h1
    simp [buildOffsetsLoop, hb1, hb2]
  · by_cases h2 : a = prev
    · subst h2
      simp [buildOffsetsLoop, h1, hb1, hb2]
    · simp [buildOffsetsLoop, h1, h2]

/-- Helper for C3: a forbidden transition anywhere in the ids makes the
offset loop fail from any scan state. -/
theorem buildOffsetsLoop_err_of_bad (ids : List Int) (k : Nat) (a b : Int)
    (ha : ids.get? k = some a) (hb : ids.get? (k + 1) = some b)
    (hbad : b < a ∨ a + 1 < b) (prev : Int) (i : Nat) (starts ends : List Nat) :
    buildOffsetsLoop ids prev i starts ends = .error "ids are not consecutive" := by
  induction ids generalizing k prev i starts ends with
  | nil => simp at ha
  | cons x xs ih =>
    cases k with
    | zero =>
      cases xs with
      | nil => simp at hb
      | cons y ys =>
        simp only [List.get?] at ha hb
        injection ha with ha
        injection hb with hb
        subst ha
        subst hb
        exact buildOffsetsLoop_err_pair x y hbad ys prev i starts ends
    | succ k' =>
      simp only [List.get?] at ha hb
      by_cases h1 : x = prev + 1
      · simpa [buildOffsetsLoop, h1] using ih k' ha hb x (i + 1) (starts ++ [i])
          (if starts.length ≠ 0 then ends ++ [i] else ends)
      · by_cases h2 : x = prev
        · simpa [buildOffsetsLoop, h1, h2] using ih k' ha hb prev (i + 1) starts ends
        · simp [buildOffsetsLoop, h1, h2]

/-- C3: building the ragged index over [0,0,1,1,1,2] produces exactly the
spans start = [0,2,5], end = [2,5,6] (lengths [2,3,1]); over [0,2,1] it
fails with the non-consecutive-ids error; and in general any transition to
a smaller id or an id that skips a value is rejected with that error. -/
theorem c3_ragged_index_build :
    load_index_offsets [0, 0, 1, 1, 1, 2] = .ok ([0, 2, 5], [2, 5, 6], [2, 3, 1]) ∧
    load_index_offsets [0, 2, 1] = .error "ids are not consecutive" ∧
    (∀ (ids : List Int) (k : Nat) (a b : Int),
      ids.get? k = some a → ids.get? (k + 1) = some b → (b < a ∨ a + 1 < b) →
      load_index_offsets ids = .error "ids are not consecutive") := by
  refine ⟨rfl, rfl, ?_⟩
  intro ids k a b ha hb hbad
  unfold load_index_offsets
  rw [buildOffsetsLoop_err_of_bad ids k a b ha hb hbad]

/-- Witness for C3: the general rejection clause applied to the concrete id
sequence [0,0,3], whose transition 0 to 3 skips values. -/
theorem c3_ragged_index_build_witness :
    load_index_offsets [0, 0, 3] = .error "ids are not consecutive" :=
  c3_ragged_index_build.2.2 [0, 0, 3] 1 0 3 (by decide) (by decide) (by decide)

/-- Shared helper: get_knns with a non-positive topk returns the explicit
empty result, independently of the store and the search function. -/
theorem get_knns_topk_nonpos (st : Datastore)
    (search : Nat → QT2 → Int → List (List Nat)) (queries : QT3) (topk : Int)
    (return_all : Bool) (h : topk ≤ 0) :
    st.get_knns search queries topk return_all =
      .ok ⟨List.replicate queries.length
             (List.replicate (queries.headD []).length ([] : QT2)),
           List.replicate queries.length
             (List.replicate (queries.headD []).length ([] : QT2)),
           if return_all then
             some (List.replicate queries.length
               (List.replicate (queries.headD []).length ([] : IT1)))
           else none,
           if return_all then
             some (List.replicate queries.length
               (List.replicate (queries.headD []).length ([] : IT1)))
           else none⟩ := by
  rw [Datastore.get_knns]
  simp only [if_pos h]
  cases return_all <;> simp

/-- C4: a similarity query with topk not positive returns well-formed empty
results — key/value tensors with n_heads times batch empty top-k rows and,
when requested, empty token/id tensors — without error and without
consulting the index search function (the result does not depend on the
store or on search). -/
theorem c4_get_knns_empty (st : Datastore)
    (search : Nat → QT2 → Int → List (List Nat)) (queries : QT3) (topk : Int)
    (return_all : Bool) (h : topk ≤ 0) :
    st.get_knns search queries topk return_all =
      .ok ⟨List.replicate queries.length
             (List.replicate (queries.headD []).length ([] : QT2)),
           List.replicate queries.length
             (List.replicate (queries.headD []).length ([] : QT2)),
           if return_all then
             some (List.replicate queries.length
               (List.replicate (queries.headD []).length ([] : IT1)))
           else none,
           if return_all then
             some (List.replicate queries.length
               (List.replicate (queries.headD []).length ([] : IT1)))
           else none⟩ :=
  get_knns_topk_nonpos st search queries topk return_all h

/-- Witness for C4: a concrete store with a search function that would fail
loudly if consulted; the query with topk = 0 still returns the well-formed
empty result. -/
theorem c4_get_knns_empty_witness :
    (Datastore.get_knns
      ⟨1, 1, 2, 0, [[[0], [0]]], [[[0], [0]]], [0, 0], [0, 0], false, none, none,
        ⟨[], [], []⟩, ⟨[], [], []⟩, ⟨[], [], []⟩, ⟨[], [], []⟩⟩
      (fun _ _ _ => [[99, 99]]) [[[1], [2]]] 0 true) =
      .ok ⟨[[[], []]], [[[], []]], some [[[], []]], some [[[], []]]⟩ := by
  have h := c4_get_knns_empty
    ⟨1, 1, 2, 0, [[[0], [0]]], [[[0], [0]]], [0, 0], [0, 0], false, none, none,
      ⟨[], [], []⟩, ⟨[], [], []⟩, ⟨[], [], []⟩, ⟨[], [], []⟩⟩
    (fun _ _ _ => [[99, 99]]) [[[1], [2]]] 0 true (by decide)
  exact h

/-- Well-formedness of a datastore: the backing arrays have the configured
shape (n_heads, size, dimension) resp. (size). -/
def Datastore.WF (st : Datastore) : Prop :=
  st.keys.length = st.n_heads ∧ (∀ r ∈ st.keys, r.length = st.size) ∧
  st.values.length = st.n_heads ∧ (∀ r ∈ st.values, r.length = st.size) ∧
  st.tokens.length = st.size ∧ st.ids.length = st.size

theorem setSlice_get?_of_lt {α : Type} (xs : List α) (start : Nat) (upd : List α)
    (j : Nat) (hstart : start ≤ xs.length) (hj : j < upd.length) :
    (setSlice xs start upd).get? (start + j) = upd.get? j := by
  unfold setSlice
  have hlen : (xs.take start).length = start := by
    simp [List.length_take, Nat.min_eq_left hstart]
  rw [List.append_assoc, List.get?_append_right (by omega)]
  rw [hlen, Nat.add_sub_cancel_left, List.get?_append hj]

theorem setSlice_nil {α : Type} (xs : List α) (start : Nat) :
    setSlice xs start [] = xs := by
  unfold setSlice
  simp

theorem zipWith_getD {α β γ : Type} (f : α → β → γ) (as : List α) (bs : List β)
    (i : Nat) (hia : i < as.length) (hib : i < bs.length) (da : α) (db : β) (dc : γ) :
    (List.zipWith f as bs).getD i dc = f (as.getD i da) (bs.getD i db) := by
  rw [List.getD_eq_getElem?_getD, List.getElem?_zipWith',
    List.getElem?_eq_getElem hia, List.getElem?_eq_getElem hib,
    List.getD_eq_getElem _ _ hia, List.getD_eq_getElem _ _ hib]
  simp

theorem zipWith_eq_left_of_mem {α β : Type} (f : α → β → α) (as : List α)
    (bs : List β) (hlen : bs.length = as.length)
    (hf : ∀ b ∈ bs, ∀ a, f a b = a) : List.zipWith f as bs = as := by
  induction as generalizing bs with
  | nil => simp
  | cons a as ih =>
    cases bs with
    | nil => simp at hlen
    | cons b bs =>
      simp only [List.zipWith_cons_cons]
      rw [hf b (by simp) a, ih bs (by simpa using hlen)
        (fun b' hb' a' => hf b' (by simp [hb']) a')]

/-- Characterization of a successful save_key_value call: the assertions
held, and the new state is the truncated or untruncated write. -/
theorem save_key_value_ok_cases (st : Datastore) (keys values : Tensor3)
    (tokens ids : IT1) (st' : Datastore)
    (h : st.save_key_value keys values tokens ids = .ok st') :
    (keys.n1 = values.n1 ∧ values.n1 = tokens.length ∧ tokens.length = ids.length) ∧
    (keys.n0 = st.n_heads ∧ keys.n2 = st.dimension) ∧
    st.cur_idx ≤ st.size ∧ st.readOnly = false ∧
    ((st.size < st.cur_idx + keys.n1 ∧
      st' = { st with
        keys := List.zipWith (fun old new => setSlice old st.cur_idx new) st.keys
          (keys.data.map (List.take (st.size - st.cur_idx))),
        values := List.zipWith (fun old new => setSlice old st.cur_idx new) st.values
          (values.data.map (List.take (st.size - st.cur_idx))),
        tokens := setSlice st.tokens st.cur_idx (tokens.take (st.size - st.cur_idx)),
        ids := setSlice st.ids st.cur_idx (ids.take (st.size - st.cur_idx)),
        cur_idx := st.cur_idx + (st.size - st.cur_idx) }) ∨
     (st.cur_idx + keys.n1 ≤ st.size ∧
      st' = { st with
        keys := List.zipWith (fun old new => setSlice old st.cur_idx new) st.keys keys.data,
        values := List.zipWith (fun old new => setSlice old st.cur_idx new) st.values values.data,
        tokens := setSlice st.tokens st.cur_idx tokens,
        ids := setSlice st.ids st.cur_idx ids,
        cur_idx := st.cur_idx + keys.n1 })) := by
  simp only [Datastore.save_key_value] at h
  split at h
  · exact absurd h (by simp)
  · split at h
    · exact absurd h (by simp)
    · split at h
      · exact absurd h (by simp)
      · split at h
        · exact absurd h (by simp)
        · rename_i hsz hshape hcur hro
          push_neg at hsz hshape hcur
          split at h
          · rename_i htr
            refine ⟨hsz, hshape, by omega, by simpa using hro, Or.inl ⟨htr, ?_⟩⟩
            injection h with h
            exact h.symm
          · rename_i htr
            refine ⟨hsz, hshape, by omega, by simpa using hro, Or.inr ⟨by omega, ?_⟩⟩
            injection h with h
            exact h.symm

/-- Single-call cursor dynamics: a successful append never moves cur_idx
backwards and never past the capacity. -/
theorem save_key_value_cur (st : Datastore) (keys values : Tensor3)
    (tokens ids : IT1) (st' : Datastore)
    (h : st.save_key_value keys values tokens ids = .ok st') :
    st.cur_idx ≤ st'.cur_idx ∧ st'.cur_idx ≤ st.size ∧
    st'.size = st.size := by
  obtain ⟨-, -, hcur, -, hcase | hcase⟩ := save_key_value_ok_cases st keys values tokens ids st' h
  · obtain ⟨htr, rfl⟩ := hcase
    exact ⟨by show st.cur_idx ≤ st.cur_idx + (st.size - st.cur_idx); omega,
      by show st.cur_idx + (st.size - st.cur_idx) ≤ st.size; omega, rfl⟩
  · obtain ⟨htr, rfl⟩ := hcase
    exact ⟨by show st.cur_idx ≤ st.cur_idx + keys.n1; omega,
      by show st.cur_idx + keys.n1 ≤ st.size; omega, rfl⟩

/-- C1: across any sequence of append calls cur_idx is monotonically
non-decreasing and never exceeds the capacity; a single append that fits
(cur_idx + n_new within capacity) writes all n_new entries at positions
cur_idx, ..., cur_idx + n_new - 1 and advances cur_idx by exactly n_new;
and an append starting at cur_idx = capacity writes nothing and leaves
cur_idx at the capacity. -/
theorem c1_vector_store_append :
    (∀ (st : Datastore) (batches : List (Tensor3 × Tensor3 × IT1 × IT1)) (st' : Datastore),
      appendSeq st batches = .ok st' →
      st.cur_idx ≤ st'.cur_idx ∧ (st.cur_idx ≤ st.size → st'.cur_idx ≤ st.size)) ∧
    (∀ (st : Datastore) (keys values : Tensor3) (tokens ids : IT1) (st' : Datastore),
      st.save_key_value keys values tokens ids = .ok st' →
      st.WF → (∀ r ∈ keys.data, r.length = keys.n1) → keys.data.length = keys.n0 →
      (∀ r ∈ values.data, r.length = values.n1) → values.data.length = values.n0 →
      values.n0 = keys.n0 →
      ((st.cur_idx + keys.n1 ≤ st.size →
        st'.cur_idx = st.cur_idx + keys.n1 ∧
        (∀ j < keys.n1,
          st'.tokens.get? (st.cur_idx + j) = tokens.get? j ∧
          st'.ids.get? (st.cur_idx + j) = ids.get? j ∧
          ∀ hd < st.n_heads,
            (st'.keys.getD hd []).get? (st.cur_idx + j) = (keys.data.getD hd []).get? j ∧
            (st'.values.getD hd []).get? (st.cur_idx + j) = (values.data.getD hd []).get? j)) ∧
       (st.cur_idx = st.size →
        st'.cur_idx = st.cur_idx ∧ st'.keys = st.keys ∧ st'.values = st.values ∧
        st'.tokens = st.tokens ∧ st'.ids = st.ids))) := by
  constructor
  · intro st batches
    induction batches generalizing st with
    | nil =>
      intro st' h
      simp only [appendSeq, List.foldlM] at h
      injection h with h
      subst h
      exact ⟨le_rfl, fun h => h⟩
    | cons b bs ih =>
      intro st' h
      simp only [appendSeq, List.foldlM] at h
      rcases hmid : st.save_key_value b.1 b.2.1 b.2.2.1 b.2.2.2 with e | stm
      · rw [hmid] at h
        simp only [bind, Except.bind] at h
        exact absurd h (by simp)
      · rw [hmid] at h
        simp only [bind, Except.bind] at h
        obtain ⟨h1, h2, h3⟩ := save_key_value_cur st b.1 b.2.1 b.2.2.1 b.2.2.2 stm hmid
        have := ih stm st' h
        exact ⟨le_trans h1 this.1, fun _ => by
          have := this.2 (by omega)
          omega⟩
  · intro st keys values tokens ids st' h hwf hkrows hklen hvrows hvlen hv0
    obtain ⟨hsz, hshape, hcur, hro, hcase | hcase⟩ :=
      save_key_value_ok_cases st keys values tokens ids st' h
    · -- truncated case: the fit clause is vacuous, at-capacity writes nothing
      obtain ⟨htr, rfl⟩ := hcase
      constructor
      · intro hfit
        omega
      · intro hatcap
        have hz : st.size - st.cur_idx = 0 := by omega
        refine ⟨by show st.cur_idx + (st.size - st.cur_idx) = st.cur_idx; omega,
          ?_, ?_, ?_, ?_⟩
        · show List.zipWith _ st.keys
            (keys.data.map (List.take (st.size - st.cur_idx))) = st.keys
          refine zipWith_eq_left_of_mem _ _ _ (by simp [hklen, hshape.1, hwf.1]) ?_
          intro bb hbb aa
          simp only [List.mem_map] at hbb
          obtain ⟨r, -, rfl⟩ := hbb
          simp [hz, setSlice_nil]
        · show List.zipWith _ st.values
            (values.data.map (List.take (st.size - st.cur_idx))) = st.values
          refine zipWith_eq_left_of_mem _ _ _
            (by simp [hvlen, hv0, hshape.1, hwf.2.2.1]) ?_
          intro bb hbb aa
          simp only [List.mem_map] at hbb
          obtain ⟨r, -, rfl⟩ := hbb
          simp [hz, setSlice_nil]
        · show setSlice st.tokens st.cur_idx (tokens.take (st.size - st.cur_idx)) = st.tokens
          simp [hz, setSlice_nil]
        · show setSlice st.ids st.cur_idx (ids.take (st.size - st.cur_idx)) = st.ids
          simp [hz, setSlice_nil]
    · obtain ⟨hfit, rfl⟩ := hcase
      have hkd : keys.data.length = st.keys.length := by
        rw [hklen, hshape.1, hwf.1]
      have hvd : values.data.length = st.values.length := by
        rw [hvlen, hv0, hshape.1, hwf.2.2.1]
      constructor
      · intro _
        refine ⟨rfl, ?_⟩
        intro j hj
        have htokcur : st.cur_idx ≤ st.tokens.length := by rw [hwf.2.2.2.2.1]; omega
        have hidcur : st.cur_idx ≤ st.ids.length := by rw [hwf.2.2.2.2.2]; omega
        refine ⟨setSlice_get?_of_lt _ _ _ _ htokcur (by omega),
          setSlice_get?_of_lt _ _ _ _ hidcur (by omega), ?_⟩
        intro hd hhd
        have hhdk : hd < st.keys.length := by rw [hwf.1]; omega
        have hhdv : hd < st.values.length := by rw [hwf.2.2.1]; omega
        constructor
        · show ((List.zipWith (fun old new => setSlice old st.cur_idx new)
              st.keys keys.data).getD hd []).get? (st.cur_idx + j) =
            (keys.data.getD hd []).get? j
          rw [zipWith_getD _ _ _ _ hhdk (by omega) [] [] []]
          refine setSlice_get?_of_lt _ _ _ _ ?_ ?_
          · have hmem : st.keys.getD hd [] ∈ st.keys := by
              rw [List.getD_eq_getElem _ _ hhdk]
              exact List.getElem_mem hhdk
            rw [hwf.2.1 _ hmem]
            omega
          · have hmem : keys.data.getD hd [] ∈ keys.data := by
              rw [List.getD_eq_getElem _ _ (by omega)]
              exact List.getElem_mem (by omega)
            rw [hkrows _ hmem]
            omega
        · show ((List.zipWith (fun old new => setSlice old st.cur_idx new)
              st.values values.data).getD hd []).get? (st.cur_idx + j) =
            (values.data.getD hd []).get? j
          rw [zipWith_getD _ _ _ _ hhdv (by omega) [] [] []]
          refine setSlice_get?_of_lt _ _ _ _ ?_ ?_
          · have hmem : st.values.getD hd [] ∈ st.values := by
              rw [List.getD_eq_getElem _ _ hhdv]
              exact List.getElem_mem hhdv
            rw [hwf.2.2.2.1 _ hmem]
            omega
          · have hmem : values.data.getD hd [] ∈ values.data := by
              rw [List.getD_eq_getElem _ _ (by omega)]
              exact List.getElem_mem (by omega)
            rw [hvrows _ hmem]
            omega
      · intro hatcap
        have hn1 : keys.n1 = 0 := by omega
        refine ⟨by simp [hn1], ?_, ?_, ?_, ?_⟩
        · show List.zipWith _ st.keys keys.data = st.keys
          refine zipWith_eq_left_of_mem _ _ _ hkd ?_
          intro bb hbb aa
          have : bb = [] := List.eq_nil_of_length_eq_zero (by rw [hkrows _ hbb, hn1])
          rw [this, setSlice_nil]
        · show List.zipWith _ st.values values.data = st.values
          refine zipWith_eq_left_of_mem _ _ _ hvd ?_
          intro bb hbb aa
          have : bb = [] := List.eq_nil_of_length_eq_zero
            (by rw [hvrows _ hbb]; omega)
          rw [this, setSlice_nil]
        · show setSlice st.tokens st.cur_idx tokens = st.tokens
          have : tokens = [] := List.eq_nil_of_length_eq_zero (by omega)
          rw [this, setSlice_nil]
        · show setSlice st.ids st.cur_idx ids = st.ids
          have : ids = [] := List.eq_nil_of_length_eq_zero (by omega)
          rw [this, setSlice_nil]

/-- Concrete one-head capacity-2 store for the C1 witness. -/
def exStC1 : Datastore :=
  ⟨1, 1, 2, 0, [[[0], [0]]], [[[0], [0]]], [0, 0], [0, 0], false, none, none,
    ⟨[], [], []⟩, ⟨[], [], []⟩, ⟨[], [], []⟩, ⟨[], [], []⟩⟩

/-- Concrete appended key batch for the C1 witness. -/
def exKeysC1 : Tensor3 := ⟨1, 1, 1, [[[5]]]⟩

/-- Concrete appended value batch for the C1 witness. -/
def exValsC1 : Tensor3 := ⟨1, 1, 1, [[[6]]]⟩

/-- The store after the C1 witness append. -/
def exStC1r : Datastore :=
  ⟨1, 1, 2, 1, [[[5], [0]]], [[[6], [0]]], [7, 0], [9, 0], false, none, none,
    ⟨[], [], []⟩, ⟨[], [], []⟩, ⟨[], [], []⟩, ⟨[], [], []⟩⟩

/-- Witness for C1 at a concrete store and batch: the cursor moves from 0 to
1, stays within capacity, and the appended token is read back at slot 0. -/
theorem c1_vector_store_append_witness :
    exStC1.cur_idx ≤ exStC1r.cur_idx ∧ exStC1r.cur_idx ≤ exStC1.size ∧
    exStC1r.cur_idx = 1 ∧ exStC1r.tokens.get? 0 = some 7 := by
  have h1 := c1_vector_store_append.1 exStC1 [(exKeysC1, exValsC1, [7], [9])] exStC1r rfl
  have h2 := (c1_vector_store_append.2 exStC1 exKeysC1 exValsC1 [7] [9] exStC1r rfl
    (by unfold Datastore.WF; decide) (by decide) (by decide) (by decide) (by decide)
    (by decide)).1 (by decide)
  refine ⟨h1.1, h1.2 (by decide), h2.1.trans (by decide), ?_⟩
  have hh := (h2.2 0 (by decide)).1
  simpa [exStC1] using hh

/-- Counterexample for C5: flushing a tracker whose buffers are empty (the
state left behind by any previous flush) does not silently emit nothing — it
fails with the empty-stack error, contradicting the claim that a second
flush does not error. -/
theorem c5_second_flush_errors :
    Tracker.write ⟨1, 1, 2, [], [], []⟩ =
      .error "stack expects a non-empty TensorList" := rfl

/-- C5 (amended): flushing the buffered predictions [5, 7, eos] (eos = 2)
emits the lines of the steps predicting 5 and 7, never the eos step, then
the blank separator, and clears the buffers; a second flush, on the now
empty buffer, raises the empty-stack error instead of emitting nothing. -/
theorem c5_tracker_flush_eos :
    Tracker.write ⟨1, 1, 2, [[5], [7], [2]],
        [[[[10]]], [[[11]]], [[[12]]]], [[[[20]]], [[[21]]], [[[22]]]]⟩ =
      .ok (["5 10 20\n", "7 11 21\n", "\n"], ⟨1, 1, 2, [], [], []⟩) ∧
    Tracker.write ⟨1, 1, 2, [], [], []⟩ =
      .error "stack expects a non-empty TensorList" := ⟨rfl, rfl⟩

/-- C6 (amended): in the ragged-width handling of flush, a step whose top-k
width equals the widest width is kept unchanged, while a step whose width
differs is replaced wholesale by an all-zero tensor shaped like the widest
step — its recorded values are discarded rather than preserved under
right-padding. -/
theorem c6_ragged_pad (steps : List IT3) (i : Nat) (hi : i < steps.length) :
    (widthOf (steps.getD i []) =
        widthOf (steps.getD (argmaxFirst (steps.map widthOf)) []) →
      (padSteps steps steps).get? i = some (steps.getD i [])) ∧
    (widthOf (steps.getD i []) ≠
        widthOf (steps.getD (argmaxFirst (steps.map widthOf)) []) →
      (padSteps steps steps).get? i =
        some (zerosLike (steps.getD (argmaxFirst (steps.map widthOf)) []))) ∧
    (∀ m ∈ zerosLike (steps.getD (argmaxFirst (steps.map widthOf)) []),
      ∀ r ∈ m, ∀ x ∈ r, x = 0) := by
  have hget : steps.get? i = some (steps.getD i []) := by
    rw [List.getD_eq_getElem _ _ hi, List.get?_eq_getElem?, List.getElem?_eq_getElem hi]
  refine ⟨?_, ?_, ?_⟩
  · intro heq
    simp only [padSteps, List.get?_map, hget, Option.map_some']
    rw [if_neg (by simp only [ne_eq, not_not]; exact heq)]
  · intro hne
    simp only [padSteps, List.get?_map, hget, Option.map_some']
    rw [if_pos hne]
  · intro mm hm r hr x hx
    simp only [zerosLike, List.mem_map] at hm
    obtain ⟨m0, -, rfl⟩ := hm
    simp only [List.mem_map] at hr
    obtain ⟨r0, -, rfl⟩ := hr
    simp only [List.mem_map] at hx
    obtain ⟨x0, -, rfl⟩ := hx
    rfl

/-- Witness for C6 (amended): for buffered steps of widths 1 and 2, the
width-1 step carrying the value 9 comes out as the all-zero width-2 step
(the 9 is not preserved), and the width-2 step is kept. -/
theorem c6_ragged_pad_witness :
    (padSteps [[[[9]]], [[[1, 2]]]] [[[[9]]], [[[1, 2]]]]).get? 0 = some [[[0, 0]]] ∧
    (padSteps [[[[9]]], [[[1, 2]]]] [[[[9]]], [[[1, 2]]]]).get? 1 = some [[[1, 2]]] := by
  constructor
  · have h := (c6_ragged_pad [[[[9]]], [[[1, 2]]]] 0 (by decide)).2.1 (by decide)
    exact h.trans (by decide)
  · have h := (c6_ragged_pad [[[[9]]], [[[1, 2]]]] 1 (by decide)).1 (by decide)
    exact h.trans (by decide)

/-- Counterexample for C6: the step of width 1 with recorded token value 9
is not right-padded to [9, 0] — it is replaced by the all-zero row [0, 0],
so the originally recorded values are not preserved in their positions. -/
theorem c6_pad_not_preserving :
    padSteps [[[[9]]], [[[1, 2]]]] [[[[9]]], [[[1, 2]]]] = [[[[0, 0]]], [[[1, 2]]]] ∧
    ([[[0, 0]]] : IT3) ≠ [[[9, 0]]] := ⟨rfl, by decide⟩

/-- Regular shape of a rank-4 tensor. -/
def Shape4 (t : QT4) (b n s d : Nat) : Prop :=
  t.length = b ∧ ∀ x ∈ t, x.length = n ∧ ∀ y ∈ x, y.length = s ∧ ∀ z ∈ y, z.length = d

theorem retrieveTopk_skip (m : MemTransAttn) (sl kl : Nat)
    (h1 : m.skip_retrieval_steps ≠ 0) (h2 : kl ≤ m.skip_retrieval_steps) :
    retrieveTopk m sl kl = 0 := by
  unfold retrieveTopk
  rw [if_pos ⟨h1, h2⟩]

theorem retrieveTopk_noskip (m : MemTransAttn) (kl : Nat)
    (h : ¬ (m.skip_retrieval_steps ≠ 0 ∧ kl ≤ m.skip_retrieval_steps)) :
    retrieveTopk m 1 kl = m.topk := by
  unfold retrieveTopk
  rw [if_neg h]
  simp

theorem chunkList_one {α : Type} (l : List α) :
    chunkList 1 l = l.map (fun a => [a]) := by
  induction l with
  | nil => simp [chunkList]
  | cons x xs ih => simp [chunkList, ih]

theorem swap01_replicate {α : Type} (dflt : α) (a b : Nat) (c : α) (ha : 0 < a) :
    swap01 dflt (List.replicate a (List.replicate b c)) =
      List.replicate b (List.replicate a c) := by
  unfold swap01
  have hhead : (List.replicate a (List.replicate b c)).headD [] = List.replicate b c := by
    cases a with
    | zero => omega
    | succ a' => simp [List.replicate]
  rw [hhead, List.length_replicate]
  rw [List.map_congr_left (g := fun _ => List.replicate a c) ?_]
  · rw [List.map_const', List.length_range]
  · intro i hi
    rw [List.mem_range] at hi
    rw [List.map_replicate, List.getD_eq_getElem _ _ (by simpa using hi)]
    simp

theorem permuteFlatten102_shape (q : QT4) (bs nh sl d : Nat)
    (hq : Shape4 q bs nh sl d) (hbs : 0 < bs) :
    (permuteFlatten102 q).length = nh ∧
      ∀ row ∈ permuteFlatten102 q, row.length = bs * sl := by
  obtain ⟨hlen, hrows⟩ := hq
  obtain ⟨x, xs, rfl⟩ : ∃ x xs, q = x :: xs := by
    cases q with
    | nil =>
      simp at hlen
      omega
    | cons x xs => exact ⟨x, xs, rfl⟩
  have hnh : x.length = nh := (hrows x (by simp)).1
  constructor
  · simp [permuteFlatten102, hnh]
  · intro row hrow
    simp only [permuteFlatten102, List.headD, List.mem_map, List.mem_range, hnh] at hrow
    obtain ⟨n, hn, rfl⟩ := hrow
    rw [List.length_flatten, List.map_map]
    rw [List.map_congr_left (g := fun _ => sl) ?_]
    · rw [List.map_const', hlen, List.sum_replicate, smul_eq_mul, Nat.mul_comm]
    · intro b hb
      have hbn : b.length = nh := (hrows b hb).1
      have : b.getD n [] ∈ b := by
        rw [List.getD_eq_getElem _ _ (by omega)]
        exact List.getElem_mem (by omega)
      exact (hrows b hb).2 _ this |>.1

/-- Evaluation of retrieve in the single-token, no-by-id, no-tracking
configuration: it reduces to one get_knns call at the effective top-k and
leaves the session state untouched. -/
theorem retrieve_eval_simple (m : MemTransAttn)
    (search : Nat → QT2 → Int → List (List Nat)) (q : QT4) (kl : Nat)
    (hby : m.by_ids = false) (htrack : m.track = false)
    (hsl : ((q.headD []).headD []).length = 1) :
    m.retrieve search q kl none =
      (match m.dstore.get_knns search (permuteFlatten102 q) (retrieveTopk m 1 kl) false with
       | .error e => .error e
       | .ok res =>
         .ok ((swap01 [] (res.ks.map (chunkList 1)),
               swap01 [] (res.vs.map (chunkList 1))), m)) := by
  unfold MemTransAttn.retrieve
  simp only [hsl, hby, MemTransAttn.is_track, htrack, false_and, if_false,
    Bool.false_eq_true]
  cases hknn : m.dstore.get_knns search (permuteFlatten102 q) (retrieveTopk m 1 kl) false with
  | error e => simp
  | ok res => simp [htrack]

/-- C7: with skip_retrieval_steps = N positive, the effective top-k of a
single-token decode call is 0 for the first N decode steps (key_length up
to N) and the configured topk afterwards; and a suppressed single-token
call (by-id lookup off, tracking off) returns retrieval tensors of zero
top-k width and leaves the session state unchanged. -/
theorem c7_skip_retrieval_steps (m : MemTransAttn) (N : Nat)
    (hN : m.skip_retrieval_steps = N) (h0 : 0 < N) :
    (∀ kl, kl ≤ N → retrieveTopk m 1 kl = 0) ∧
    (∀ kl, N < kl → retrieveTopk m 1 kl = m.topk) ∧
    (∀ (search : Nat → QT2 → Int → List (List Nat)) (q : QT4) (kl : Nat)
      (bs nh d : Nat) (r : QT5 × QT5) (m' : MemTransAttn),
      m.by_ids = false → m.track = false → Shape4 q bs nh 1 d →
      0 < bs → 0 < nh → kl ≤ N →
      m.retrieve search q kl none = .ok (r, m') →
      r.1 = List.replicate bs (List.replicate nh [[]]) ∧
      r.2 = List.replicate bs (List.replicate nh [[]]) ∧
      m' = m) := by
  refine ⟨fun kl hkl => retrieveTopk_skip m 1 kl (by omega) (by omega), ?_, ?_⟩
  · intro kl hkl
    refine retrieveTopk_noskip m kl ?_
    rw [hN]
    omega
  · intro search q kl bs nh d r m' hby htrack hsh hbs hnh hkl hret
    have hne : q ≠ [] := by
      intro hx
      rw [hx] at hsh
      have := hsh.1
      simp at this
      omega
    have hheadmem : q.headD [] ∈ q := by
      cases q with
      | nil => exact absurd rfl hne
      | cons x xs => simp
    have hx := hsh.2 _ hheadmem
    have hxne : q.headD [] ≠ [] := by
      intro hx2
      rw [hx2] at hx
      have := hx.1
      simp at this
      omega
    have hheadmem2 : (q.headD []).headD [] ∈ q.headD [] := by
      cases hxx : q.headD [] with
      | nil => exact absurd hxx hxne
      | cons x xs => simp
    have hsl : ((q.headD []).headD []).length = 1 := (hx.2 _ hheadmem2).1
    rw [retrieve_eval_simple m search q kl hby htrack hsl] at hret
    rw [retrieveTopk_skip m 1 kl (by omega) (by omega)] at hret
    rw [get_knns_topk_nonpos _ _ _ _ _ le_rfl] at hret
    obtain ⟨hlenf, hrowf⟩ := permuteFlatten102_shape q bs nh 1 d hsh hbs
    have hfne : permuteFlatten102 q ≠ [] := by
      intro hx2
      rw [hx2] at hlenf
      simp at hlenf
      omega
    have hheadf : (permuteFlatten102 q).headD [] ∈ permuteFlatten102 q := by
      cases hxx : permuteFlatten102 q with
      | nil => exact absurd hxx hfne
      | cons x xs => simp
    have hrowlen : ((permuteFlatten102 q).headD []).length = bs := by
      rw [hrowf _ hheadf]
      omega
    simp only [hlenf, hrowlen] at hret
    simp only [List.map_replicate, chunkList_one, List.map_nil] at hret
    rw [swap01_replicate ([] : QT3) nh bs ([([] : QT2)]) hnh] at hret
    simp only [Except.ok.injEq, Prod.mk.injEq] at hret
    obtain ⟨hr, hm⟩ := hret
    refine ⟨?_, ?_, hm.symm⟩
    · rw [← hr]
    · rw [← hr]

/-- Concrete small datastore for the retrieve-stage witnesses. -/
def exDsC7 : Datastore :=
  ⟨1, 1, 2, 0, [[[0], [0]]], [[[0], [0]]], [0, 0], [0, 0], false, none, none,
    ⟨[], [], []⟩, ⟨[], [], []⟩, ⟨[], [], []⟩, ⟨[], [], []⟩⟩

/-- Concrete retrieve-stage session with skip_retrieval_steps = 1 for the
C7 witness. -/
def exMtaC7 : MemTransAttn :=
  ⟨exDsC7, 4, 1, "retrieve", false, ⟨1, 4, 1, [], [], []⟩, false, none, 0, 1,
    false, false⟩

/-- Witness for C7: with skip_retrieval_steps = 1 the first decode step
(key_length 1) gets top-k 0 and the second (key_length 2) the configured
top-k 4; the suppressed concrete retrieve call returns zero-width tensors
and leaves the state untouched. -/
theorem c7_skip_retrieval_steps_witness :
    retrieveTopk exMtaC7 1 1 = 0 ∧
    retrieveTopk exMtaC7 1 2 = exMtaC7.topk ∧
    (([[[[]]]] : QT5) = List.replicate 1 (List.replicate 1 [[]]) ∧
     ([[[[]]]] : QT5) = List.replicate 1 (List.replicate 1 [[]]) ∧
     exMtaC7 = exMtaC7) := by
  have h := c7_skip_retrieval_steps exMtaC7 1 rfl (by decide)
  exact ⟨h.1 1 le_rfl, h.2.1 2 (by decide),
    h.2.2 (fun _ _ _ => []) [[[[1]]]] 1 1 1 1 (([[[[]]]] : QT5), ([[[[]]]] : QT5))
      exMtaC7 rfl rfl (by unfold Shape4; decide) (by decide) (by decide) le_rfl
      (by with_unfolding_all rfl)⟩

theorem flatten_uniform_get? {α : Type} (blocks : List (List α)) (sl : Nat)
    (hu : ∀ b ∈ blocks, b.length = sl) (j s : Nat) (hj : j < blocks.length)
    (hs : s < sl) :
    blocks.flatten.get? (j * sl + s) = (blocks.getD j []).get? s := by
  induction blocks generalizing j with
  | nil => simp at hj
  | cons b bs ih =>
    have hb : b.length = sl := hu b (by simp)
    cases j with
    | zero =>
      simp only [List.flatten_cons, Nat.zero_mul, Nat.zero_add]
      rw [List.get?_append (by omega)]
      rfl
    | succ j' =>
      simp only [List.flatten_cons]
      rw [List.get?_append_right (by rw [hb, Nat.succ_mul]; omega)]
      have harith : (j' + 1) * sl + s - b.length = j' * sl + s := by
        rw [hb, Nat.succ_mul]
        omega
      rw [harith, ih (fun b2 hb2 => hu b2 (by simp [hb2])) j' (by simpa using hj)]
      rfl

/-- The id assigned by saveIds to sequence position s of batch row j. -/
theorem saveIds_get (off : Int) (bs sl j s : Nat) (hj : j < bs) (hs : s < sl) :
    (saveIds off bs sl).get? (j * sl + s) = some (off + (j : Int)) := by
  unfold saveIds
  have hu : ∀ b ∈ (List.range bs).map (fun i => List.replicate sl (off + Int.ofNat i)),
      b.length = sl := by
    intro b hb
    simp only [List.mem_map, List.mem_range] at hb
    obtain ⟨i, -, rfl⟩ := hb
    simp
  have hj2 : j < ((List.range bs).map (fun i => List.replicate sl (off + Int.ofNat i))).length := by
    simpa using hj
  rw [flatten_uniform_get? _ sl hu j s hj2 hs]
  rw [List.getD_eq_getElem _ _ hj2]
  simp only [List.getElem_map, List.getElem_range]
  rw [List.get?_eq_getElem?, List.getElem?_eq_getElem (by simpa using hs)]
  simp

/-- C8: every successful save call advances id_offset by exactly the batch
size (whatever the label mask keeps, even nothing), so the example id
assigned to batch position j at sequence position s in the next call is
old id_offset + bs + j. -/
theorem c8_save_advances_id_offset (m : MemTransAttn)
    (key_states value_states : QT4) (m' : MemTransAttn)
    (h : m.save key_states value_states = .ok m') :
    m'.id_offset = m.id_offset + (key_states.length : Int) ∧
    ∀ (bs' sl' j s : Nat), j < bs' → s < sl' →
      (saveIds m'.id_offset bs' sl').get? (j * sl' + s) =
        some (m.id_offset + (key_states.length : Int) + (j : Int)) := by
  have hoff : m'.id_offset = m.id_offset + (key_states.length : Int) := by
    simp only [MemTransAttn.save] at h
    split at h
    · split at h
      · exact absurd h (by simp)
      · simp only [Except.ok.injEq] at h
        rw [← h]
    · exact absurd h (by simp)
  refine ⟨hoff, ?_⟩
  intro bs' sl' j s hj hs
  rw [saveIds_get _ _ _ _ _ hj hs, hoff]

/-- Save-stage session whose labels are entirely masked out (-100): the C8
witness has zero surviving tokens. -/
def exMtaC8 : MemTransAttn :=
  ⟨⟨1, 1, 2, 0, [[[0], [0]]], [[[0], [0]]], [0, 0], [0, 0], false,
      some [[-100]], some [[3]],
      ⟨[], [], []⟩, ⟨[], [], []⟩, ⟨[], [], []⟩, ⟨[], [], []⟩⟩,
    4, 1, "save", false, ⟨1, 4, 1, [], [], []⟩, false, none, 0, 0, false, false⟩

/-- Witness for C8: a batch of size 1 whose only position is masked out
still advances id_offset from 0 to 1, and the next call would assign id 1
to batch position 0. -/
theorem c8_save_advances_id_offset_witness :
    ({ exMtaC8 with id_offset := 1 } : MemTransAttn).id_offset =
      exMtaC8.id_offset + 1 ∧
    (saveIds ({ exMtaC8 with id_offset := 1 } : MemTransAttn).id_offset 1 1).get? 0 =
      some 1 := by
  have h := c8_save_advances_id_offset exMtaC8 [[[[2]]]] [[[[2]]]]
    { exMtaC8 with id_offset := 1 } rfl
  refine ⟨h.1.trans (by decide), ?_⟩
  have h2 := h.2 1 1 0 0 (by decide) (by decide)
  simpa [exMtaC8] using h2

theorem retrieveTopk_multi_nonpos (m : MemTransAttn) (sl kl : Nat) (h : 1 < sl) :
    retrieveTopk m sl kl ≤ 0 := by
  unfold retrieveTopk
  simp only [if_pos h]
  split
  · exact le_rfl
  · exact min_le_right _ _

/-- Evaluation of retrieve in the by-id single-token configuration (no
tracking): cache hit, or a fresh by-id lookup whose result is cached unless
retrieval was skipped. -/
theorem retrieve_eval_by_ids (m : MemTransAttn)
    (search : Nat → QT2 → Int → List (List Nat)) (q : QT4) (kl : Nat)
    (hby : m.by_ids = true) (htrack : m.track = false)
    (hsl : ((q.headD []).headD []).length = 1) :
    m.retrieve search q kl none =
      (match (if ¬ (m.skip_retrieval_steps ≠ 0 ∧ kl ≤ m.skip_retrieval_steps) then
          m.by_ids_cache else none) with
       | some c =>
         .ok ((swap01 [] (c.ks.map (chunkList 1)), swap01 [] (c.vs.map (chunkList 1))), m)
       | none =>
         match m.dstore.get_knns_by_ids
             ((List.range q.length).map (fun i => Int.ofNat i + m.id_offset))
             (retrieveTopk m 1 kl) m.skip_first_token false with
         | .error e => .error e
         | .ok res =>
           .ok ((swap01 [] (res.ks.map (chunkList 1)),
                 swap01 [] (res.vs.map (chunkList 1))),
             { m with by_ids_cache :=
                 if ¬ (m.skip_retrieval_steps ≠ 0 ∧ kl ≤ m.skip_retrieval_steps) then
                   some res else none })) := by
  unfold MemTransAttn.retrieve
  simp only [hsl, hby, MemTransAttn.is_track, htrack, true_and, Option.getD_none,
    Bool.false_eq_true]
  cases hc : (if ¬ (m.skip_retrieval_steps ≠ 0 ∧ kl ≤ m.skip_retrieval_steps) then
      m.by_ids_cache else none) with
  | some c => simp [htrack]
  | none =>
    cases hknn : m.dstore.get_knns_by_ids
        ((List.range q.length).map (fun i => Int.ofNat i + m.id_offset))
        (retrieveTopk m 1 kl) m.skip_first_token false with
    | error e => simp [htrack]
    | ok res => simp [htrack]

/-- Evaluation of retrieve in the multi-token configuration (no tracking):
one similarity query at a non-positive effective top-k, id_offset advanced
by the batch size, cache cleared. -/
theorem retrieve_eval_multi (m : MemTransAttn)
    (search : Nat → QT2 → Int → List (List Nat)) (q : QT4) (kl sl : Nat)
    (htrack : m.track = false)
    (hsl : ((q.headD []).headD []).length = sl) (h2 : 1 < sl) :
    m.retrieve search q kl none =
      (match m.dstore.get_knns search (permuteFlatten102 q) (retrieveTopk m sl kl) false with
       | .error e => .error e
       | .ok res =>
         .ok ((swap01 [] (res.ks.map (chunkList sl)),
               swap01 [] (res.vs.map (chunkList sl))),
           { m with id_offset := m.id_offset + (q.length : Int),
                    by_ids_cache := none })) := by
  unfold MemTransAttn.retrieve
  have hne1 : ¬ sl = 1 := by omega
  simp only [hsl, hne1, MemTransAttn.is_track, htrack, and_false, if_false,
    Bool.false_eq_true, if_pos h2]
  cases hknn : m.dstore.get_knns search (permuteFlatten102 q) (retrieveTopk m sl kl) false with
  | error e => simp [htrack, h2]
  | ok res => simp [htrack, h2]

/-- C10 (amended): in by-id mode with no explicit ids, a single-token
retrieve call never advances id_offset and always looks up the ids
id_offset + [0, ..., bs-1] (passing those ids explicitly gives the same
call); a cache hit (retrieval not skipped, cache full) leaves the whole
session state unchanged; but a single-token call whose retrieval is skipped
(key_length within skip_retrieval_steps) also resets the one-slot cache to
empty; a multi-token call advances id_offset by the batch size and clears
the cache. -/
theorem c10_by_ids_offset_and_cache :
    (∀ (m : MemTransAttn) (search : Nat → QT2 → Int → List (List Nat))
      (q : QT4) (kl bs nh d : Nat) (r : QT5 × QT5) (m' : MemTransAttn),
      m.by_ids = true → m.track = false → Shape4 q bs nh 1 d → 0 < bs → 0 < nh →
      m.retrieve search q kl none = .ok (r, m') →
      m'.id_offset = m.id_offset ∧
      m.retrieve search q kl
          (some ((List.range bs).map (fun i => Int.ofNat i + m.id_offset))) =
        m.retrieve search q kl none ∧
      (¬ (m.skip_retrieval_steps ≠ 0 ∧ kl ≤ m.skip_retrieval_steps) →
        m.by_ids_cache.isSome = true → m' = m) ∧
      ((m.skip_retrieval_steps ≠ 0 ∧ kl ≤ m.skip_retrieval_steps) →
        m'.by_ids_cache = none)) ∧
    (∀ (m : MemTransAttn) (search : Nat → QT2 → Int → List (List Nat))
      (q : QT4) (kl bs nh sl d : Nat) (r : QT5 × QT5) (m' : MemTransAttn),
      m.track = false → Shape4 q bs nh sl d → 0 < bs → 0 < nh → 1 < sl →
      m.retrieve search q kl none = .ok (r, m') →
      m'.id_offset = m.id_offset + (bs : Int) ∧ m'.by_ids_cache = none) := by
  have hslfun : ∀ (q : QT4) (bs nh sl d : Nat), Shape4 q bs nh sl d → 0 < bs → 0 < nh →
      ((q.headD []).headD []).length = sl := by
    intro q bs nh sl d hsh hbs hnh
    obtain ⟨hlen, hrows⟩ := hsh
    obtain ⟨x, xs, rfl⟩ : ∃ x xs, q = x :: xs := by
      cases q with
      | nil =>
        simp at hlen
        omega
      | cons x xs => exact ⟨x, xs, rfl⟩
    have hx := hrows x (by simp)
    obtain ⟨y, ys, hxy⟩ : ∃ y ys, x = y :: ys := by
      cases x with
      | nil =>
        have := hx.1
        simp at this
        omega
      | cons y ys => exact ⟨y, ys, rfl⟩
    have hy := hx.2 y (by rw [hxy]; simp)
    simp [hxy, hy.1]
  constructor
  · intro m search q kl bs nh d r m' hby htrack hsh hbs hnh hret
    have hsl := hslfun q bs nh 1 d hsh hbs hnh
    have hq : q.length = bs := hsh.1
    have hsame : m.retrieve search q kl
        (some ((List.range bs).map (fun i => Int.ofNat i + m.id_offset))) =
        m.retrieve search q kl none := by
      rw [← hq]
      rfl
    rw [retrieve_eval_by_ids m search q kl hby htrack hsl] at hret
    by_cases hskip : m.skip_retrieval_steps ≠ 0 ∧ kl ≤ m.skip_retrieval_steps
    · rw [if_neg (by simpa using hskip)] at hret
      rcases hknn : m.dstore.get_knns_by_ids
          ((List.range q.length).map (fun i => Int.ofNat i + m.id_offset))
          (retrieveTopk m 1 kl) m.skip_first_token false with e | res
      · rw [hknn] at hret
        exact absurd hret (by simp)
      · rw [hknn] at hret
        simp only [Except.ok.injEq, Prod.mk.injEq] at hret
        obtain ⟨-, hm⟩ := hret
        rw [if_neg (by simpa using hskip)] at hm
        refine ⟨?_, hsame, fun hns _ => absurd hskip hns, fun _ => ?_⟩
        · rw [← hm]
        · rw [← hm]
    · rw [if_pos hskip] at hret
      cases hc : m.by_ids_cache with
      | some c =>
        rw [hc] at hret
        simp only [Except.ok.injEq, Prod.mk.injEq] at hret
        obtain ⟨-, hm⟩ := hret
        exact ⟨by rw [← hm], hsame, fun _ _ => hm.symm, fun hsk => absurd hsk hskip⟩
      | none =>
        rw [hc] at hret
        rcases hknn : m.dstore.get_knns_by_ids
            ((List.range q.length).map (fun i => Int.ofNat i + m.id_offset))
            (retrieveTopk m 1 kl) m.skip_first_token false with e | res
        · rw [hknn] at hret
          exact absurd hret (by simp)
        · rw [hknn] at hret
          simp only [Except.ok.injEq, Prod.mk.injEq] at hret
          obtain ⟨-, hm⟩ := hret
          refine ⟨by rw [← hm], hsame, fun _ hsome => ?_, fun hsk => absurd hsk hskip⟩
          simp at hsome
  · intro m search q kl bs nh sl d r m' htrack hsh hbs hnh hsl2 hret
    have hsl := hslfun q bs nh sl d hsh hbs hnh
    have hq : q.length = bs := hsh.1
    rw [retrieve_eval_multi m search q kl sl htrack hsl hsl2] at hret
    rw [get_knns_topk_nonpos _ _ _ _ _ (retrieveTopk_multi_nonpos m sl kl hsl2)] at hret
    simp only [Except.ok.injEq, Prod.mk.injEq] at hret
    obtain ⟨-, hm⟩ := hret
    constructor
    · rw [← hm, hq]
    · rw [← hm]

/-- Concrete datastore with strided lookup structures for the by-id
retrieval scenarios. -/
def exDsC10 : Datastore :=
  ⟨1, 1, 2, 0, [[[0], [0]]], [[[0], [0]]], [0, 0], [0, 0], false, none, none,
    ⟨[[[5]]], [0], [1]⟩, ⟨[[[6]]], [0], [1]⟩, ⟨[3], [0], [1]⟩, ⟨[0], [0], [1]⟩⟩

/-- A non-empty cached by-id retrieval result. -/
def exCacheC10 : KnnResult := ⟨[[[[1]]]], [[[[1]]]], none, none⟩

/-- By-id retrieve session with a full cache and skip_retrieval_steps = 1. -/
def exMtaC10 : MemTransAttn :=
  ⟨exDsC10, 4, 1, "retrieve", false, ⟨1, 4, 1, [], [], []⟩, true, some exCacheC10,
    0, 1, false, false⟩

/-- Counterexample for C10: a single-token (seq_length 1) retrieve call with
retrieval skipped (key_length 1 within skip_retrieval_steps = 1) resets the
one-slot by-id cache from a full slot to empty, so the cache is not cleared
only by multi-token calls. -/
theorem c10_single_token_skip_clears_cache :
    exMtaC10.by_ids_cache = some exCacheC10 ∧
    exMtaC10.retrieve (fun _ _ _ => []) [[[[1]]]] 1 none =
      .ok ((([[[[]]]] : QT5), ([[[[]]]] : QT5)),
        { exMtaC10 with by_ids_cache := none }) :=
  ⟨rfl, by with_unfolding_all rfl⟩

/-- By-id retrieve session with a full cache and no skipping. -/
def exMtaC10h : MemTransAttn :=
  ⟨exDsC10, 4, 1, "retrieve", false, ⟨1, 4, 1, [], [], []⟩, true, some exCacheC10,
    0, 0, false, false⟩

/-- Witness for C10 (amended) at concrete sessions: a single-token cache
hit leaves the session untouched and behaves like the explicit-ids call,
while a multi-token call advances id_offset by the batch size 1 and clears
the cache. -/
theorem c10_by_ids_offset_and_cache_witness :
    exMtaC10h.id_offset = exMtaC10h.id_offset ∧
    (exMtaC10h.retrieve (fun _ _ _ => []) [[[[1]]]] 1
        (some ((List.range 1).map (fun i => Int.ofNat i + exMtaC10h.id_offset))) =
      exMtaC10h.retrieve (fun _ _ _ => []) [[[[1]]]] 1 none) ∧
    exMtaC10h = exMtaC10h ∧
    ({ exMtaC10h with id_offset := 1, by_ids_cache := none } : MemTransAttn).id_offset =
      exMtaC10h.id_offset + 1 ∧
    ({ exMtaC10h with id_offset := 1, by_ids_cache := none } : MemTransAttn).by_ids_cache =
      none := by
  have hhit := c10_by_ids_offset_and_cache.1 exMtaC10h (fun _ _ _ => []) [[[[1]]]] 1 1 1 1
    (([[[[[1]]]]] : QT5), ([[[[[1]]]]] : QT5)) exMtaC10h rfl rfl
    (by unfold Shape4; decide) (by decide) (by decide) (by with_unfolding_all rfl)
  have hmulti := c10_by_ids_offset_and_cache.2 exMtaC10h (fun _ _ _ => []) [[[[1], [2]]]] 1
    1 1 2 1 (([[[[], []]]] : QT5), ([[[[], []]]] : QT5))
    { exMtaC10h with id_offset := 1, by_ids_cache := none }
    rfl (by unfold Shape4; decide) (by decide) (by decide) (by decide)
    (by with_unfolding_all rfl)
  exact ⟨hhit.1, hhit.2.1, hhit.2.2.1 (by decide) rfl, hmulti.1, hmulti.2⟩

/-- Regular shape of a rank-5 tensor. -/
def Shape5 (t : QT5) (b n s k d : Nat) : Prop :=
  t.length = b ∧ ∀ x ∈ t, x.length = n ∧ ∀ y ∈ x, y.length = s ∧
    ∀ z ∈ y, z.length = k ∧ ∀ w ∈ z, w.length = d

theorem headD_mem {α : Type} (l : List α) (d : α) (h : l ≠ []) : l.headD d ∈ l := by
  cases l with
  | nil => exact absurd rfl h
  | cons x xs => simp

theorem Shape4_size2 (t : QT4) (b n s d : Nat) (h : Shape4 t b n s d)
    (hb : 0 < b) (hn : 0 < n) : size2 t = s := by
  obtain ⟨hlen, hrows⟩ := h
  have ht : t ≠ [] := by
    intro hx
    rw [hx] at hlen
    simp at hlen
    omega
  have hx := hrows _ (headD_mem t [] ht)
  have hxne : t.headD [] ≠ [] := by
    intro hx2
    rw [hx2] at hx
    have := hx.1
    simp at this
    omega
  exact (hx.2 _ (headD_mem _ [] hxne)).1

theorem Shape5_size2of5 (t : QT5) (b n s k d : Nat) (h : Shape5 t b n s k d)
    (hb : 0 < b) (hn : 0 < n) : size2of5 t = s := by
  obtain ⟨hlen, hrows⟩ := h
  have ht : t ≠ [] := by
    intro hx
    rw [hx] at hlen
    simp at hlen
    omega
  have hx := hrows _ (headD_mem t [] ht)
  have hxne : t.headD [] ≠ [] := by
    intro hx2
    rw [hx2] at hx
    have := hx.1
    simp at this
    omega
  exact (hx.2 _ (headD_mem _ [] hxne)).1

theorem Shape5_topkOf (t : QT5) (b n s k d : Nat) (h : Shape5 t b n s k d)
    (hb : 0 < b) (hn : 0 < n) (hs : 0 < s) : topkOf t = k := by
  obtain ⟨hlen, hrows⟩ := h
  have ht : t ≠ [] := by
    intro hx
    rw [hx] at hlen
    simp at hlen
    omega
  have hx := hrows _ (headD_mem t [] ht)
  have hxne : t.headD [] ≠ [] := by
    intro hx2
    rw [hx2] at hx
    have := hx.1
    simp at this
    omega
  have hy := hx.2 _ (headD_mem _ [] hxne)
  have hyne : (t.headD []).headD [] ≠ [] := by
    intro hx2
    rw [hx2] at hy
    have := hy.1
    simp at this
    omega
  exact (hy.2 _ (headD_mem _ [] hyne)).1

theorem zipWith_append_nil {α : Type} (a b : List (List α))
    (hlen : a.length = b.length) (hnil : ∀ e ∈ a, e = []) :
    List.zipWith (· ++ ·) a b = b := by
  induction a generalizing b with
  | nil =>
    cases b with
    | nil => rfl
    | cons f fs => simp at hlen
  | cons e es ih =>
    cases b with
    | nil => simp at hlen
    | cons f fs =>
      rw [List.zipWith_cons_cons, hnil e (by simp), List.nil_append]
      rw [ih fs (by simpa using hlen) (fun e2 he2 => hnil e2 (by simp [he2]))]

theorem cat2_eq_right (x y : QT4) (hlen : x.length = y.length)
    (hx : ∀ p ∈ List.zip x y, p.1.length = p.2.length ∧ ∀ e ∈ p.1, e = []) :
    cat2 x y = y := by
  induction x generalizing y with
  | nil =>
    cases y with
    | nil => rfl
    | cons f fs => simp at hlen
  | cons a as ih =>
    cases y with
    | nil => simp at hlen
    | cons b bs =>
      have h1 := hx (a, b) (by simp)
      have hstep : cat2 (a :: as) (b :: bs) =
          (List.zipWith (· ++ ·) a b) :: cat2 as bs := rfl
      rw [hstep, zipWith_append_nil a b h1.1 h1.2,
        ih bs (by simpa using hlen) (fun p hp => hx p (by simp [hp]))]

/-- Concatenating the squeezed zero-width retrieved tensor in front of the
local keys/values is the identity. -/
theorem cat2_squeeze_zero (ret : QT5) (k2 : QT4) (bs nh d : Nat)
    (hr : Shape5 ret bs nh 1 0 d) (hlen : k2.length = bs)
    (hk2 : ∀ x ∈ k2, x.length = nh) :
    cat2 (squeeze2 ret) k2 = k2 := by
  apply cat2_eq_right
  · simp [squeeze2, hr.1, hlen]
  · intro p hp
    obtain ⟨p1, p2⟩ := p
    have hmem := List.of_mem_zip hp
    obtain ⟨h1, h2⟩ := hmem
    simp only [squeeze2, List.mem_map] at h1
    obtain ⟨a, ha, heq⟩ := h1
    have hashape := hr.2 a ha
    simp only at h2 ⊢
    rw [← heq]
    constructor
    · rw [List.length_map, hashape.1, hk2 _ h2]
    · intro e he
      simp only [List.mem_map] at he
      obtain ⟨yy, hyy, rfl⟩ := he
      have hy := hashape.2 yy hyy
      obtain ⟨z, zs, rfl⟩ : ∃ z zs, yy = z :: zs := by
        cases yy with
        | nil =>
          have := hy.1
          simp at this
        | cons z zs => exact ⟨z, zs, rfl⟩
      have hz : z.length = 0 := (hy.2 z (by simp)).1
      simp [List.eq_nil_of_length_eq_zero hz]

theorem cat2_take_drop (n : Nat) (k : QT4) : cat2 (take2 n k) (drop2 n k) = k := by
  unfold cat2 take2 drop2
  rw [List.zipWith_map, List.zipWith_same]
  rw [List.map_congr_left (g := fun a => a) ?_, List.map_id']
  intro a _
  rw [List.zipWith_map, List.zipWith_same]
  rw [List.map_congr_left (g := fun r => r) ?_, List.map_id']
  intro r _
  exact List.take_append_drop n r

theorem zipWith_replicate_left {α β γ : Type} (f : α → β → γ) (c : α) (l : List β) :
    List.zipWith f (List.replicate l.length c) l = l.map (f c) := by
  induction l with
  | nil => rfl
  | cons x xs ih => simpa [List.replicate] using ih

/-- Extending a regular mask by zero columns of width zero is the
identity. -/
theorem cat3_zeros_mask (m : QT4)
    (hreg : ∀ x ∈ m, x.length = (m.headD []).length ∧
      ∀ y ∈ x, y.length = ((m.headD []).headD []).length) :
    cat3 (zeros4 m.length (m.headD []).length ((m.headD []).headD []).length 0) m = m := by
  unfold cat3 zeros4
  rw [zipWith_replicate_left]
  rw [List.map_congr_left (g := fun x => x) ?_, List.map_id']
  intro x hx
  have hxlen := (hreg x hx).1
  rw [← hxlen, zipWith_replicate_left]
  rw [List.map_congr_left (g := fun y => y) ?_, List.map_id']
  intro y hy
  have hylen := (hreg x hx).2 y hy
  rw [← hylen, zipWith_replicate_left]
  rw [List.map_congr_left (g := fun r => r) ?_, List.map_id']
  intro r _
  rfl

/-- C2: in single-token decode mode (seq_length 1) with zero-width retrieved
tensors (topk 0), the fused attention path returns exactly the attention
weights and attention output of the unmodified host attention computation on
the same inputs (original_attn recomputing its position bias over the past
cache with relative attention bias enabled), under either retrieved-key
placement policy. -/
theorem c2_attn_topk0_matches_original (ori : T5AttentionE) (aaf : Bool)
    (q key val : QT4) (ret_ks ret_vs : QT5) (mask : Option QT4)
    (pkv : QT4 × QT4) (rsl kl bs nh d : Nat)
    (hrel : ori.has_relative_attention_bias = true)
    (hq : Shape4 q bs nh 1 d) (hk : Shape4 key bs nh kl d) (hv : Shape4 val bs nh kl d)
    (hrk : Shape5 ret_ks bs nh 1 0 d) (hrv : Shape5 ret_vs bs nh 1 0 d)
    (hbs : 0 < bs) (hnh : 0 < nh)
    (hmask : ∀ mm, mask = some mm → ∀ x ∈ mm, x.length = (mm.headD []).length ∧
      ∀ y ∈ x, y.length = ((mm.headD []).headD []).length)
    (hrsl : rsl = kl) :
    attn aaf ori q key val ret_ks ret_vs mask none rsl kl =
      .ok ((original_attn ori q key val (some pkv) none mask none rsl kl).1,
           (original_attn ori q key val (some pkv) none mask none rsl kl).2.1) := by
  have hsl : size2 q = 1 := Shape4_size2 q bs nh 1 d hq hbs hnh
  have htop : topkOf ret_ks = 0 := Shape5_topkOf ret_ks bs nh 1 0 d hrk hbs hnh (by omega)
  have hs25 : size2of5 ret_ks = 1 := Shape5_size2of5 ret_ks bs nh 1 0 d hrk hbs hnh
  have hs25v : size2of5 ret_vs = 1 := Shape5_size2of5 ret_vs bs nh 1 0 d hrv hbs hnh
  have hkey : cat2 (squeeze2 ret_ks) key = key :=
    cat2_squeeze_zero ret_ks key bs nh d hrk hk.1 (fun x hx => (hk.2 x hx).1)
  have hval : cat2 (squeeze2 ret_vs) val = val :=
    cat2_squeeze_zero ret_vs val bs nh d hrv hv.1 (fun x hx => (hv.2 x hx).1)
  have hkeyd : cat2 (squeeze2 ret_ks) (drop2 1 key) = drop2 1 key := by
    refine cat2_squeeze_zero ret_ks (drop2 1 key) bs nh d hrk ?_ ?_
    · simp [drop2, hk.1]
    · intro x hx
      simp only [drop2, List.mem_map] at hx
      obtain ⟨b, hb, rfl⟩ := hx
      simp [(hk.2 b hb).1]
  have hvald : cat2 (squeeze2 ret_vs) (drop2 1 val) = drop2 1 val := by
    refine cat2_squeeze_zero ret_vs (drop2 1 val) bs nh d hrv ?_ ?_
    · simp [drop2, hv.1]
    · intro x hx
      simp only [drop2, List.mem_map] at hx
      obtain ⟨b, hb, rfl⟩ := hx
      simp [(hv.2 b hb).1]
  have hbias : update_mask_and_position_bias ori mask 1 rsl kl 0 =
      init_position_bias ori (some pkv) mask rsl kl 1 := by
    unfold update_mask_and_position_bias init_position_bias
    cases mask with
    | none => simp [hrel]
    | some mm =>
      simp only [Option.map_some', Nat.zero_add]
      rw [cat3_zeros_mask mm (hmask mm rfl)]
      simp [hrel]
  unfold attn original_attn
  simp only [Option.isSome_none, Bool.false_eq_true, if_false, hsl, htop, hs25, hs25v,
    Nat.lt_irrefl, not_true, not_false_eq_true, and_self, if_true]
  rw [if_neg (show ¬ ¬ rsl = kl by simp [hrsl])]
  by_cases haaf : (aaf = true) ∧ 1 < kl
  · rw [if_pos haaf]
    simp only [hkeyd, hvald, cat2_take_drop, hbias]
  · rw [if_neg haaf]
    simp only [hkey, hval, hbias]

/-- Concrete one-head host attention layer with identity projections for the
attention witnesses. -/
def exOriC2 : T5AttentionE :=
  ⟨true, 1, 1, 1, true, id, id, id, id,
    fun a b => [[List.replicate a (List.replicate b 0)]], id, id⟩

/-- Witness for C2: at concrete one-element tensors with zero-width
retrieval, the fused path returns exactly the unmodified attention result. -/
theorem c2_attn_topk0_witness :
    attn false exOriC2 [[[[1]]]] [[[[2]]]] [[[[3]]]] [[[[]]]] [[[[]]]] none none 1 1 =
      .ok ((original_attn exOriC2 [[[[1]]]] [[[[2]]]] [[[[3]]]]
              (some ([[[[0]]]], [[[[0]]]])) none none none 1 1).1,
           (original_attn exOriC2 [[[[1]]]] [[[[2]]]] [[[[3]]]]
              (some ([[[[0]]]], [[[[0]]]])) none none none 1 1).2.1) :=
  c2_attn_topk0_matches_original exOriC2 false [[[[1]]]] [[[[2]]]] [[[[3]]]]
    [[[[]]]] [[[[]]]] none ([[[[0]]]], [[[[0]]]]) 1 1 1 1 1 rfl
    (by unfold Shape4; decide) (by unfold Shape4; decide) (by unfold Shape4; decide)
    (by unfold Shape5; decide) (by unfold Shape5; decide) (by decide) (by decide)
    (by intro mm h; exact absurd h (by simp)) rfl

/-- C9: in the retrieve stage, the cached key/value state handed back by the
forward pass for autoregressive reuse is exactly the local key/value states
built by project from the input and the past cache — the retrieved top-k
keys/values fused inside the attention computation never enter it. -/
theorem c9_present_state_unchanged (ori : T5AttentionE) (m : MemTransAttn)
    (search : Nat → QT2 → Int → List (List Nat)) (hidden : QT3)
    (mask : Option QT4) (kvs : Option QT3) (pb : Option QT4)
    (past : Option (QT4 × QT4)) (lhm : Option QT4) (ql : Option Nat)
    (oa : Bool) (out : ForwardOut) (m' : MemTransAttn)
    (hstage : m.stage = "retrieve") (hdec : ori.is_decoder = true)
    (hfwd : t5attetnion_forward ori m search hidden mask kvs pb past lhm ql
      true oa = .ok (out, m')) :
    out.present_key_value_state =
      some (project hidden ori.kF ori.key_value_proj_dim kvs (past.map (·.1)),
            project hidden ori.vF ori.key_value_proj_dim kvs (past.map (·.2))) := by
  unfold t5attetnion_forward at hfwd
  rw [hstage] at hfwd
  simp only [reduceIte, String.reduceEq] at hfwd
  split at hfwd
  · exact absurd hfwd (by simp)
  · split at hfwd
    · exact absurd hfwd (by simp)
    · simp only [Except.ok.injEq, Prod.mk.injEq] at hfwd
      obtain ⟨hout, -⟩ := hfwd
      rw [← hout]
      simp [hdec]

/-- Witness for C9: a concrete retrieve-stage forward call (suppressed
retrieval, one-element tensors) returns as cached state exactly the
projected local key/value states. -/
theorem c9_present_state_unchanged_witness :
    (⟨[[[1]]], some ([[[[1]]]], [[[[1]]]]), [[[[0]]]], none⟩ :
        ForwardOut).present_key_value_state =
      some (project [[[1]]] exOriC2.kF exOriC2.key_value_proj_dim none none,
            project [[[1]]] exOriC2.vF exOriC2.key_value_proj_dim none none) :=
  c9_present_state_unchanged exOriC2 exMtaC7 (fun _ _ _ => []) [[[1]]] none none none
    none none none false
    ⟨[[[1]]], some ([[[[1]]]], [[[[1]]]]), [[[[0]]]], none⟩ exMtaC7 rfl rfl
    (by with_unfolding_all rfl)

end MemTrans
